import Mathlib

/-!
Verification of the title-parsing / model-matching engine of the car auction server
(`app/utils/model_matcher.py` and `app/utils/title_parser.py`).

The Python code is shallowly embedded: text is `List Char`, Python `None`-able
strings are `Option String`, the JSON catalog (`car_models.json`, loaded at run
time and not part of the sources) is an explicit `Catalog` parameter, and every
regex used by the code is translated into an executable scanner with the same
leftmost / greedy semantics on the character classes the code uses.
-/

set_option maxRecDepth 40000

namespace CarAuction

/-- Whitespace class used for Python `\s` and `str.strip` (the ASCII part of
Python's whitespace class). -/
def pyWs (c : Char) : Bool :=
  c = ' ' || c = '\t' || c = '\n' || c = '\r' || c = '\x0b' || c = '\x0c'

/-- The regex class `[A-Za-z0-9]`. -/
def isAsciiAlnum (c : Char) : Bool :=
  ('A' ≤ c && c ≤ 'Z') || ('a' ≤ c && c ≤ 'z') || ('0' ≤ c && c ≤ '9')

/-- The regex class `[A-Z]`. -/
def isUpperAZ (c : Char) : Bool := 'A' ≤ c && c ≤ 'Z'

/-- The regex class `\d` (the ASCII part). -/
def isDigit09 (c : Char) : Bool := '0' ≤ c && c ≤ '9'

/-- Numeric value of an ASCII digit. -/
def digVal (c : Char) : Nat := c.toNat - '0'.toNat

/-- Python substring containment `needle in hay` over char lists. -/
def containsSub : List Char → List Char → Bool
  | needle, [] => needle.isEmpty
  | needle, c :: rest => needle.isPrefixOf (c :: rest) || containsSub needle rest

/-- Python `str.strip()`. -/
def pyStrip (l : List Char) : List Char :=
  ((l.dropWhile pyWs).reverse.dropWhile pyWs).reverse

/-- Python truthiness of an optional string (`None` and `""` are falsy). -/
def optTruthy : Option String → Bool
  | none => false
  | some s => !(s == "")

/-- First element of the list on which `f` fires; models a Python
`for`-loop whose body `return`s on a hit. -/
def firstSome {α β : Type} (f : α → Option β) : List α → Option β
  | [] => none
  | x :: xs =>
    match f x with
    | some r => some r
    | none => firstSome f xs

/-- Leftmost regex-style search: try a matcher at every position. -/
def findFirst {α : Type} (f : List Char → Option α) : List Char → Option α
  | [] => none
  | c :: rest =>
    match f (c :: rest) with
    | some r => some r
    | none => findFirst f rest

/-- Python dict lookup `d.get(k)` over an association list with unique keys. -/
def lookupStr (m : List (String × String)) (k : String) : Option String :=
  (m.find? (fun p => p.1 == k)).map (fun p => p.2)

/-- Python dict lookup `d.get(k, dflt)`. -/
def lookupStrD (m : List (String × String)) (k dflt : String) : String :=
  (lookupStr m k).getD dflt

/-- Stable insertion used by `sortLenDescBy`: the new element goes after all
existing elements whose key is ≥ its own, matching Python's stable
`sorted(key=len, reverse=True)`. -/
def insertLenDescBy {α : Type} (key : α → Nat) (x : α) : List α → List α
  | [] => [x]
  | y :: ys => if key x ≤ key y then y :: insertLenDescBy key x ys else x :: y :: ys

/-- Python `sorted(items, key=lambda x: len(..), reverse=True)` (stable). -/
def sortLenDescBy {α : Type} (key : α → Nat) (l : List α) : List α :=
  l.foldl (fun acc x => insertLenDescBy key x acc) []

/-- Distinct elements in first-occurrence order: the key order of a Python dict
built by repeated insertion. -/
def dedupFirstAux (seen : List String) : List String → List String
  | [] => []
  | x :: xs =>
    if seen.contains x then dedupFirstAux seen xs
    else x :: dedupFirstAux (x :: seen) xs

/-- Global (non-overlapping, leftmost) removal of every match of `matchAt`,
as in `re.sub(pat, '', s)`; `matchAt` returns the remainder after a match at
the current position.  The fuel argument is the string length; every step of
the scan consumes at least one character, so it never runs out. -/
def removeAllF (matchAt : List Char → Option (List Char)) : Nat → List Char → List Char
  | 0, l => l
  | _ + 1, [] => []
  | n + 1, c :: rest =>
    match matchAt (c :: rest) with
    | some rest2 => removeAllF matchAt n rest2
    | none => c :: removeAllF matchAt n rest

/-- `re.sub(pat, '', s)` with `matchAt` deciding a match at each position. -/
def removeAll (matchAt : List Char → Option (List Char)) (l : List Char) : List Char :=
  removeAllF matchAt l.length l

/-- Python `s.replace(pat, '')` (all occurrences, leftmost, non-overlapping). -/
def replaceAllEmptyF (pat : List Char) : Nat → List Char → List Char
  | 0, l => l
  | _ + 1, [] => []
  | n + 1, c :: rest =>
    if pat.isPrefixOf (c :: rest) then replaceAllEmptyF pat n ((c :: rest).drop pat.length)
    else c :: replaceAllEmptyF pat n rest

/-- Python `s.replace(pat, '')`. -/
def replaceAllEmpty (pat : List Char) (l : List Char) : List Char :=
  if pat.isEmpty then l else replaceAllEmptyF pat l.length l

/-- `re.sub(r'\s+', ' ', s)`: collapse every whitespace run to one space. -/
def collapseWsF : Nat → List Char → List Char
  | 0, l => l
  | _ + 1, [] => []
  | n + 1, c :: rest =>
    if pyWs c then ' ' :: collapseWsF n (rest.dropWhile pyWs)
    else c :: collapseWsF n rest

/-- `re.sub(r'\s+', ' ', s)`. -/
def collapseWs (l : List Char) : List Char := collapseWsF l.length l

/-- Match of `\s*/\s*` at the current position: a (possibly empty) whitespace
run, a slash, a (possibly empty) whitespace run; returns the remainder. -/
def slashMatchAt (l : List Char) : Option (List Char) :=
  match l.dropWhile pyWs with
  | c :: r2 => if c = '/' then some (r2.dropWhile pyWs) else none
  | [] => none

/-- `re.sub(r'\s*/\s*', '', s)` (used by `normalize_score`). -/
def subSlashF : Nat → List Char → List Char
  | 0, l => l
  | _ + 1, [] => []
  | n + 1, c :: rest =>
    match slashMatchAt (c :: rest) with
    | some rest2 => subSlashF n rest2
    | none => c :: subSlashF n rest

/-- `re.sub(r'\s*/\s*', '', s)`. -/
def subSlash (l : List Char) : List Char := subSlashF l.length l

/-- Python `s.split(maxsplit=1)`: leading whitespace dropped; yields the first
token and the remainder after the separating whitespace run, or `none` when
the string has no token. -/
def splitMax1 (l : List Char) : Option (List Char × List Char) :=
  let t := l.dropWhile pyWs
  match t.span (fun c => !pyWs c) with
  | ([], _) => none
  | (tok, rest) => some (tok, rest.dropWhile pyWs)

/-- `s.split()[0] if s.split() else None`. -/
def firstWordOf (l : List Char) : Option (List Char) :=
  (splitMax1 l).map (fun p => p.1)


/-! ### Alias tables

Literal transcriptions of the Python dict literals, in dict `items()` order
(first-insertion position, last-assigned value — the three duplicate keys of
`MODEL_VARIATIONS` are resolved the way a Python dict resolves them). -/

def MANUFACTURER_LABEL_MAP : List (String × String) := [
  ("현대", "현대"),
  ("기아", "기아"),
  ("제네시스", "제네시스"),
  ("쉐보레", "쉐보레"),
  ("쉐보레(한국GM)", "쉐보레"),
  ("쉐보레(대우)", "쉐보레"),
  ("한국GM", "쉐보레"),
  ("르노삼성", "르노삼성"),
  ("르노(삼성)", "르노삼성"),
  ("르노코리아", "르노삼성"),
  ("KG모빌리티", "KG모빌리티"),
  ("KG모빌리티(쌍용)", "KG모빌리티"),
  ("쌍용", "KG모빌리티"),
  ("벤츠", "벤츠"),
  ("메르세데스-벤츠", "벤츠"),
  ("메르세데스벤츠", "벤츠"),
  ("BMW", "BMW"),
  ("아우디", "아우디"),
  ("폭스바겐", "폭스바겐"),
  ("포르쉐", "포르쉐"),
  ("미니", "미니"),
  ("토요타", "토요타"),
  ("도요타", "토요타"),
  ("렉서스", "렉서스"),
  ("혼다", "혼다"),
  ("닛산", "닛산"),
  ("스바루", "스바루"),
  ("포드", "포드"),
  ("링컨", "링컨"),
  ("지프", "지프"),
  ("캐딜락", "캐딜락"),
  ("테슬라", "테슬라"),
  ("크라이슬러", "크라이슬러"),
  ("볼보", "볼보"),
  ("랜드로버", "랜드로버"),
  ("재규어", "재규어"),
  ("마세라티", "마세라티"),
  ("푸조", "푸조")
]

def MODEL_VARIATIONS : List (String × String) := [
  ("그랜져", "그랜저"),
  ("싼타페", "싼타페"),
  ("산타페", "싼타페"),
  ("투싼", "투싼"),
  ("투쌍", "투싼"),
  ("벨로스터", "벨로스터"),
  ("코나", "코나"),
  ("넥소", "넥쏘"),
  ("스타리아", "스타리아"),
  ("그랜드스타렉스", "스타렉스"),
  ("스타렉스", "스타렉스"),
  ("포터2", "포터"),
  ("포터II", "포터"),
  ("마이티", "마이티"),
  ("GRANDEUR", "그랜저"),
  ("SONATA", "쏘나타"),
  ("SANTAFE", "싼타페"),
  ("SANTA FE", "싼타페"),
  ("TUCSON", "투싼"),
  ("AVANTE", "아반떼"),
  ("ELANTRA", "아반떼"),
  ("PALISADE", "팰리세이드"),
  ("KONA", "코나"),
  ("VENUE", "베뉴"),
  ("NEXO", "넥쏘"),
  ("IONIQ", "아이오닉"),
  ("IONIQ5", "아이오닉5"),
  ("IONIQ6", "아이오닉6"),
  ("STARIA", "스타리아"),
  ("STAREX", "스타렉스"),
  ("PORTER", "포터"),
  ("PORTER2", "포터"),
  ("CASPER", "캐스퍼"),
  ("VELOSTER", "벨로스터"),
  ("ACCENT", "엑센트"),
  ("i30", "i30"),
  ("i40", "i40"),
  ("쏘렌토", "쏘렌토"),
  ("소렌토", "쏘렌토"),
  ("카니발", "카니발"),
  ("봉고3", "봉고"),
  ("봉고Ⅲ", "봉고"),
  ("봉고III", "봉고"),
  ("셀토스", "셀토스"),
  ("스포티지", "스포티지"),
  ("K3", "K3"),
  ("K5", "K5"),
  ("K7", "K7"),
  ("K8", "K8"),
  ("K9", "K9"),
  ("EV6", "EV6"),
  ("EV9", "EV9"),
  ("니로", "니로"),
  ("레이", "레이"),
  ("모닝", "모닝"),
  ("SORENTO", "쏘렌토"),
  ("CARNIVAL", "카니발"),
  ("SEDONA", "카니발"),
  ("SPORTAGE", "스포티지"),
  ("SELTOS", "셀토스"),
  ("STONIC", "스토닉"),
  ("SOUL", "쏘울"),
  ("NIRO", "니로"),
  ("RAY", "레이"),
  ("MORNING", "모닝"),
  ("PICANTO", "모닝"),
  ("MOHAVE", "모하비"),
  ("BORREGO", "모하비"),
  ("STINGER", "스팅어"),
  ("OPTIMA", "K5"),
  ("CADENZA", "K7"),
  ("BONGO", "봉고"),
  ("FORTE", "포르테"),
  ("PRIDE", "프라이드"),
  ("RIO", "프라이드"),
  ("G70", "G70"),
  ("G80", "G80"),
  ("G90", "G90"),
  ("GV60", "GV60"),
  ("GV70", "GV70"),
  ("GV80", "GV80"),
  ("GENESIS G70", "G70"),
  ("GENESIS G80", "G80"),
  ("GENESIS G90", "G90"),
  ("GENESIS GV60", "GV60"),
  ("GENESIS GV70", "GV70"),
  ("GENESIS GV80", "GV80"),
  ("E-클래스", "E클래스"),
  ("E클래스", "E클래스"),
  ("E 클래스", "E클래스"),
  ("C-클래스", "C클래스"),
  ("C클래스", "C클래스"),
  ("C 클래스", "C클래스"),
  ("S-클래스", "S클래스"),
  ("S클래스", "S클래스"),
  ("S 클래스", "S클래스"),
  ("A-클래스", "A클래스"),
  ("A클래스", "A클래스"),
  ("A 클래스", "A클래스"),
  ("GLE-클래스", "GLE"),
  ("GLE클래스", "GLE"),
  ("GLE 클래스", "GLE"),
  ("GLC-클래스", "GLC"),
  ("GLC클래스", "GLC"),
  ("GLC 클래스", "GLC"),
  ("GLB-클래스", "GLB"),
  ("GLB클래스", "GLB"),
  ("GLB 클래스", "GLB"),
  ("GLA-클래스", "GLA"),
  ("GLA클래스", "GLA"),
  ("GLA 클래스", "GLA"),
  ("CLA-클래스", "CLA"),
  ("CLA클래스", "CLA"),
  ("CLA 클래스", "CLA"),
  ("CLS-클래스", "CLS"),
  ("CLS클래스", "CLS"),
  ("CLS 클래스", "CLS"),
  ("G-클래스", "G클래스"),
  ("G클래스", "G클래스"),
  ("G 클래스", "G클래스"),
  ("GLS-클래스", "GLS"),
  ("GLS클래스", "GLS"),
  ("GLS 클래스", "GLS"),
  ("E300", "E클래스"),
  ("E350", "E클래스"),
  ("E200", "E클래스"),
  ("E220", "E클래스"),
  ("E250", "E클래스"),
  ("E400", "E클래스"),
  ("E450", "E클래스"),
  ("E53", "E클래스"),
  ("E63", "E클래스"),
  ("C200", "C클래스"),
  ("C220", "C클래스"),
  ("C250", "C클래스"),
  ("C300", "C클래스"),
  ("C43", "C클래스"),
  ("C63", "C클래스"),
  ("S350", "S클래스"),
  ("S400", "S클래스"),
  ("S450", "S클래스"),
  ("S500", "S클래스"),
  ("S560", "S클래스"),
  ("S580", "S클래스"),
  ("S63", "S클래스"),
  ("S65", "S클래스"),
  ("GLE350", "GLE"),
  ("GLE450", "GLE"),
  ("GLE53", "GLE"),
  ("GLE63", "GLE"),
  ("GLC200", "GLC"),
  ("GLC250", "GLC"),
  ("GLC300", "GLC"),
  ("GLC43", "GLC"),
  ("GLC63", "GLC"),
  ("3시리즈", "3시리즈"),
  ("5시리즈", "5시리즈"),
  ("7시리즈", "7시리즈"),
  ("1시리즈", "1시리즈"),
  ("4시리즈", "4시리즈"),
  ("3 시리즈", "3시리즈"),
  ("5 시리즈", "5시리즈"),
  ("7 시리즈", "7시리즈"),
  ("1 시리즈", "1시리즈"),
  ("4 시리즈", "4시리즈"),
  ("X1", "X1"),
  ("X3", "X3"),
  ("X5", "X5"),
  ("X6", "X6"),
  ("X7", "X7"),
  ("320i", "3시리즈"),
  ("320d", "3시리즈"),
  ("330i", "3시리즈"),
  ("330e", "3시리즈"),
  ("340i", "3시리즈"),
  ("M340i", "3시리즈"),
  ("520i", "5시리즈"),
  ("520d", "5시리즈"),
  ("530i", "5시리즈"),
  ("530e", "5시리즈"),
  ("540i", "5시리즈"),
  ("M550i", "5시리즈"),
  ("730i", "7시리즈"),
  ("730d", "7시리즈"),
  ("740i", "7시리즈"),
  ("740d", "7시리즈"),
  ("750i", "7시리즈"),
  ("A3", "A3"),
  ("A4", "A4"),
  ("A5", "A5"),
  ("A6", "A6"),
  ("A7", "A7"),
  ("Q3", "Q3"),
  ("Q5", "Q5"),
  ("Q7", "Q7"),
  ("Q8", "Q8"),
  ("e-tron", "e-트론"),
  ("이트론", "e-트론"),
  ("모델3", "모델3"),
  ("모델 3", "모델3"),
  ("Model3", "모델3"),
  ("Model 3", "모델3"),
  ("MODEL3", "모델3"),
  ("MODEL 3", "모델3"),
  ("TESLA MODEL 3", "모델3"),
  ("TESLA MODEL3", "모델3"),
  ("모델Y", "모델Y"),
  ("모델 Y", "모델Y"),
  ("ModelY", "모델Y"),
  ("Model Y", "모델Y"),
  ("MODELY", "모델Y"),
  ("MODEL Y", "모델Y"),
  ("TESLA MODEL Y", "모델Y"),
  ("TESLA MODELY", "모델Y"),
  ("모델S", "모델S"),
  ("모델 S", "모델S"),
  ("ModelS", "모델S"),
  ("Model S", "모델S"),
  ("MODELS", "모델S"),
  ("MODEL S", "모델S"),
  ("TESLA MODEL S", "모델S"),
  ("모델X", "모델X"),
  ("모델 X", "모델X"),
  ("ModelX", "모델X"),
  ("Model X", "모델X"),
  ("MODELX", "모델X"),
  ("MODEL X", "모델X"),
  ("TESLA MODEL X", "모델X"),
  ("ES300", "ES"),
  ("ES350", "ES"),
  ("RX350", "RX"),
  ("RX450", "RX"),
  ("NX300", "NX"),
  ("NX350", "NX"),
  ("LS500", "LS"),
  ("XC40", "XC40"),
  ("XC60", "XC60"),
  ("XC90", "XC90"),
  ("XC70", "XC70"),
  ("S40", "S40"),
  ("S60", "S60"),
  ("S90", "S90"),
  ("V40", "V40"),
  ("V60", "V60"),
  ("알티마", "알티마"),
  ("로그", "로그"),
  ("맥시마", "맥시마"),
  ("무라노", "무라노"),
  ("큐브", "큐브"),
  ("에비에이터", "에비에이터"),
  ("MKZ", "MKZ"),
  ("MKS", "MKS"),
  ("MKX", "MKX"),
  ("네비게이터", "네비게이터"),
  ("노틸러스", "노틸러스"),
  ("ATS", "ATS"),
  ("ATS-V", "ATS"),
  ("CTS", "CTS"),
  ("CT6", "CT6"),
  ("XT5", "XT5"),
  ("에스컬레이드", "에스컬레이드"),
  ("르반떼", "르반떼"),
  ("레반테", "르반떼"),
  ("기블리", "기블리"),
  ("콰트로포르테", "콰트로포르테"),
  ("그란투리스모", "GT"),
  ("그란카브리오", "그란카브리오"),
  ("308", "308"),
  ("308SW", "308"),
  ("508", "508"),
  ("2008", "2008"),
  ("e-2008", "2008"),
  ("3008", "3008"),
  ("5008", "5008"),
  ("300C", "300C"),
  ("퍼시피카", "퍼시피카"),
  ("아웃백", "아웃백"),
  ("포레스터", "포레스터"),
  ("XV", "XV"),
  ("레거시", "레거시"),
  ("제네시스", "제네시스"),
  ("제네시스쿠페", "제네시스쿠페"),
  ("다이너스티", "다이너스티"),
  ("카운티", "카운티"),
  ("e-카운티", "카운티"),
  ("콜로라도", "콜로라도"),
  ("이쿼녹스", "이쿼녹스"),
  ("알페온", "알페온"),
  ("트래버스", "트래버스"),
  ("라세티", "라세티"),
  ("라세티프리미어", "라세티"),
  ("아발론", "아발론"),
  ("시에나", "시에나"),
  ("하이랜더", "하이랜더"),
  ("6시리즈", "6시리즈"),
  ("M3", "M3"),
  ("M4", "M4"),
  ("X4", "X4"),
  ("토러스", "토러스"),
  ("뉴토러스", "토러스"),
  ("포커스", "포커스"),
  ("브롱코", "브롱코"),
  ("M-클래스", "M클래스"),
  ("M클래스", "M클래스"),
  ("ML", "M클래스"),
  ("GLK-클래스", "GLK"),
  ("GLK클래스", "GLK"),
  ("HR-V", "HR-V"),
  ("파일럿", "파일럿"),
  ("프리랜더", "프리랜더"),
  ("프리랜더2", "프리랜더"),
  ("IS", "IS"),
  ("IS250", "IS"),
  ("IS300", "IS"),
  ("CT", "CT"),
  ("CT200h", "CT"),
  ("GS", "GS"),
  ("LC", "LC"),
  ("UX", "UX"),
  ("클리오", "클리오"),
  ("마스터", "마스터")
]

def MANUFACTURER_ALIASES : List (String × String) := [
  ("현대", "현대"),
  ("기아", "기아"),
  ("제네시스", "제네시스"),
  ("쉐보레", "쉐보레"),
  ("쉐보레(한국GM)", "쉐보레"),
  ("쉐보레(대우)", "쉐보레"),
  ("한국GM", "쉐보레"),
  ("르노삼성", "르노삼성"),
  ("르노(삼성)", "르노삼성"),
  ("르노코리아", "르노삼성"),
  ("KG모빌리티", "KG모빌리티"),
  ("KG모빌리티(쌍용)", "KG모빌리티"),
  ("쌍용", "KG모빌리티"),
  ("벤츠", "벤츠"),
  ("메르세데스-벤츠", "벤츠"),
  ("메르세데스벤츠", "벤츠"),
  ("BMW", "BMW"),
  ("아우디", "아우디"),
  ("폭스바겐", "폭스바겐"),
  ("포르쉐", "포르쉐"),
  ("미니", "미니"),
  ("토요타", "토요타"),
  ("렉서스", "렉서스"),
  ("혼다", "혼다"),
  ("닛산", "닛산"),
  ("인피니티", "인피니티"),
  ("마쓰다", "마쓰다"),
  ("스바루", "스바루"),
  ("미쓰비시", "미쓰비시"),
  ("포드", "포드"),
  ("링컨", "링컨"),
  ("지프", "지프"),
  ("크라이슬러", "크라이슬러"),
  ("캐딜락", "캐딜락"),
  ("GMC", "GMC"),
  ("테슬라", "테슬라"),
  ("볼보", "볼보"),
  ("랜드로버", "랜드로버"),
  ("재규어", "재규어"),
  ("푸조", "푸조"),
  ("시트로엥", "시트로엥"),
  ("피아트", "피아트"),
  ("알파로메오", "알파로메오"),
  ("마세라티", "마세라티"),
  ("페라리", "페라리"),
  ("람보르기니", "람보르기니"),
  ("벤틀리", "벤틀리"),
  ("롤스로이스", "롤스로이스"),
  ("애스턴마틴", "애스턴마틴"),
  ("맥라렌", "맥라렌"),
  ("DFSK", "DFSK"),
  ("DFSK(동풍자동차)", "DFSK"),
  ("동풍", "DFSK"),
  ("BYD", "BYD")
]

def FUEL_TYPE_ALIASES : List (String × String) := [
  ("가솔린", "가솔린"),
  ("휘발유", "가솔린"),
  ("GDI", "가솔린"),
  ("GDi", "가솔린"),
  ("T-GDI", "가솔린"),
  ("터보", "가솔린"),
  ("디젤", "디젤"),
  ("경유", "디젤"),
  ("CRDi", "디젤"),
  ("VGT", "디젤"),
  ("e-VGT", "디젤"),
  ("TDI", "디젤"),
  ("LPG", "LPG"),
  ("LPI", "LPG"),
  ("LPe", "LPG"),
  ("전기", "전기"),
  ("일렉트릭", "전기"),
  ("EV", "전기"),
  ("FCEV", "수소"),
  ("하이브리드", "하이브리드"),
  ("HEV", "하이브리드"),
  ("(H)", "하이브리드"),
  ("(HEV)", "하이브리드"),
  ("PHEV", "플러그인하이브리드"),
  ("(PHEV)", "플러그인하이브리드"),
  ("수소", "수소")
]

def TRANSMISSION_ALIASES : List (String × String) := [
  ("오토", "자동"),
  ("자동", "자동"),
  ("A/T", "자동"),
  ("AT", "자동"),
  ("DCT", "자동"),
  ("수동", "수동"),
  ("M/T", "수동"),
  ("MT", "수동")
]

def USAGE_TYPE_ALIASES : List (String × String) := [
  ("자가용", "자가용"),
  ("렌터카", "렌터카"),
  ("렌트", "렌터카"),
  ("영업용", "영업용"),
  ("관용", "관용")
]

def COMPOUND_MODEL_NAMES : List (String × String) := [
  ("그랜드 스타렉스", "그랜드스타렉스"),
  ("그랜저 IG", "그랜저"),
  ("스타렉스", "스타렉스"),
  ("포터 2", "포터2"),
  ("포터 II", "포터2"),
  ("포터II", "포터2"),
  ("봉고 3", "봉고3"),
  ("봉고 III", "봉고3"),
  ("봉고Ⅲ", "봉고3"),
  ("봉고Ⅲ화물", "봉고3"),
  ("올란도", "올란도")
]


/-! ### Catalog data model (`car_models.json` objects)

The catalog file is external run-time data, so it is a parameter of every
matching function.  JSON objects are records of optional fields, mirroring the
code's `dict.get` accesses. -/

/-- A trim object (`{"id": ..., "trim": ...}`). -/
structure Trim where
  id : Option String
  trim : Option String
deriving DecidableEq

/-- A model object (`{"id": ..., "model": ..., "trims": [...]}`);
`model.get("trims", [])` makes a missing trim list the empty list. -/
structure Model where
  id : Option String
  model : Option String
  trims : List Trim
deriving DecidableEq

/-- A manufacturer object (`{"id": ..., "label": ..., "models": [...]}`). -/
structure Mfr where
  id : Option String
  label : Option String
  models : List Model
deriving DecidableEq

/-- The two top-level lists of `car_models.json`. -/
structure Catalog where
  domestic : List Mfr
  imported : List Mfr
deriving DecidableEq

/-- `MatchResult` dataclass of `model_matcher.py`. -/
structure MatchResult where
  manufacturer_id : Option String
  manufacturer_name : Option String
  model_id : Option String
  model_name : Option String
  trim_id : Option String
  trim_name : Option String
deriving DecidableEq

/-- `MatchResult()` with the dataclass defaults. -/
def MatchResult.empty : MatchResult := ⟨none, none, none, none, none, none⟩

/-- Manufacturers in iteration order (`domestic` then `import`). -/
def allMfrs (cat : Catalog) : List Mfr := cat.domestic ++ cat.imported

/-- `_build_manufacturer_index` plus a dict lookup: `index[label] = mfr` with
later entries overwriting, so the last manufacturer with the label wins. -/
def mfrIndexLookup (cat : Catalog) (label : String) : Option Mfr :=
  ((allMfrs cat).filter (fun m => m.label.getD "" == label)).getLast?

/-- All (manufacturer, model) pairs in catalog iteration order. -/
def allPairs (cat : Catalog) : List (Mfr × Model) :=
  (allMfrs cat).flatMap (fun m => m.models.map (fun mo => (m, mo)))

/-- `_build_model_index` entry list for one model name (append order is the
catalog iteration order). -/
def modelEntries (cat : Catalog) (name : String) : List (Mfr × Model) :=
  (allPairs cat).filter (fun p => p.2.model.getD "" == name)

/-- The keys of the model index in dict insertion order. -/
def modelKeys (cat : Catalog) : List String :=
  dedupFirstAux [] ((allPairs cat).map (fun p => p.2.model.getD ""))

/-! ### `TRIM_YEAR_PATTERN` -/

/-- Match of `TRIM_YEAR_PATTERN = \((\d{2})년~([^\)]+)\)` at the current
position; returns the two captured start-year digits and the remainder after
the closing parenthesis. -/
def yearRangeAt : List Char → Option (Char × Char × List Char)
  | '(' :: d1 :: d2 :: '년' :: '~' :: rest =>
    if isDigit09 d1 && isDigit09 d2 then
      match rest.span (fun c => !(c = ')')) with
      | (run, ')' :: rest3) => if run.isEmpty then none else some (d1, d2, rest3)
      | _ => none
    else none
  | _ => none

/-- `TRIM_YEAR_PATTERN.search(s)` returning `group(1)` (the two start-year
digits of the first embedded year range). -/
def findTrimYear (l : List Char) : Option (Char × Char) :=
  findFirst (fun t => (yearRangeAt t).map (fun r => (r.1, r.2.1))) l

/-- Numeric value of a two-digit year capture (`int(title_year)`). -/
def yearToInt (d : Char × Char) : Int :=
  ((digVal d.1 * 10 + digVal d.2 : Nat) : Int)

/-! ### `_normalize_model_text` -/

/-- Patterns of the anchored prefix-stripping loops (shared verbatim between
`_normalize_model_text` and `_extract_model_and_trim`); `ws0`/`ws1` are
`\s*`/`\s+`, and `litCI` is a case-insensitive literal (the loops run with
`re.IGNORECASE`, which only affects the Latin patterns). -/
inductive Pat
  | lit (s : String)
  | litCI (s : String)
  | ws0
  | ws1
deriving DecidableEq

/-- Case-insensitive literal match (`Char.toLower` folding, as Python
`re.IGNORECASE` does for ASCII); returns the remainder. -/
def matchCIList : List Char → List Char → Option (List Char)
  | [], l => some l
  | _ :: _, [] => none
  | p :: ps, c :: rest => if p.toLower == c.toLower then matchCIList ps rest else none

/-- Match one pattern token at the current position; returns the remainder.
The whitespace tokens are greedy, which is exact here because in every pattern
they are followed by a non-whitespace literal or the end of the pattern. -/
def matchPat : Pat → List Char → Option (List Char)
  | .lit s, l => if s.data.isPrefixOf l then some (l.drop s.length) else none
  | .litCI s, l => matchCIList s.data l
  | .ws0, l => some (l.dropWhile pyWs)
  | .ws1, l =>
    match l with
    | c :: rest => if pyWs c then some (rest.dropWhile pyWs) else none
    | [] => none

/-- Match a token sequence at the current position. -/
def matchPats : List Pat → List Char → Option (List Char)
  | [], l => some l
  | p :: ps, l =>
    match matchPat p l with
    | some r => matchPats ps r
    | none => none

/-- The ten anchored modifier patterns, in source order: `^더\s*뉴\s*`,
`^더뉴\s*`, `^올\s*뉴\s*`, `^디\s*올\s*뉴\s*`, `^신형\s*`, `^NEW\s+`,
`^뉴\s*`, `^NF\s+`, `^LF\s+`, `^YF\s+`. -/
def MODEL_PFX_PATS : List (List Pat) := [
  [.lit "더", .ws0, .lit "뉴", .ws0],
  [.lit "더뉴", .ws0],
  [.lit "올", .ws0, .lit "뉴", .ws0],
  [.lit "디", .ws0, .lit "올", .ws0, .lit "뉴", .ws0],
  [.lit "신형", .ws0],
  [.litCI "NEW", .ws1],
  [.lit "뉴", .ws0],
  [.litCI "NF", .ws1],
  [.litCI "LF", .ws1],
  [.litCI "YF", .ws1]
]

/-- The `for p in prefixes: text = re.sub(p, '', text, flags=re.IGNORECASE)`
loop: each pattern is anchored at the start, so each `re.sub` removes at most
one leading match. -/
def stripModelPfx (l : List Char) : List Char :=
  MODEL_PFX_PATS.foldl
    (fun t pl =>
      match matchPats pl t with
      | some r => r
      | none => t) l

/-- Match of `\([A-Z]{1,3}\d{1,3}\)` at the current position (generation-code
parenthetical); backtracking collapses to: an uppercase run of length 1–3, a
digit run of length 1–3, then `)`. Returns the remainder. -/
def genCodeAt (l : List Char) : Option (List Char) :=
  match l with
  | '(' :: rest =>
    let s1 := rest.span isUpperAZ
    let s2 := s1.2.span isDigit09
    match s2.2 with
    | ')' :: rest3 =>
      if 1 ≤ s1.1.length && s1.1.length ≤ 3 && 1 ≤ s2.1.length && s2.1.length ≤ 3 then
        some rest3
      else none
    | _ => none
  | _ => none

/-- Match of the literal alternation `\(DM\)|\(DN8\)|\(CN7\)|\(NX4\)`. -/
def litCodeAt (l : List Char) : Option (List Char) :=
  firstSome
    (fun pat => if pat.data.isPrefixOf l then some (l.drop pat.length) else none)
    ["(DM)", "(DN8)", "(CN7)", "(NX4)"]

/-- `_normalize_model_text`: strip modifier patterns, remove year-range
parentheticals, remove generation-code parentheticals, strip. -/
def normalizeModelText (text : List Char) : List Char :=
  let t1 := stripModelPfx text
  let t2 := removeAll (fun l => (yearRangeAt l).map (fun r => r.2.2)) t1
  let t3 := removeAll genCodeAt t2
  let t4 := removeAll litCodeAt t3
  pyStrip t4

/-! ### `_find_model_in_text` -/

/-- The selection performed at every hit inside `_find_model_in_text`: with a
truthy manufacturer label, the entry list is scanned for that label first; in
all cases the code then falls back to the first entry. -/
def selectEntry (entries : List (Mfr × Model)) (label : Option String) : Option (Mfr × Model) :=
  if optTruthy label then
    match entries.find? (fun p => p.1.label == label) with
    | some p => some p
    | none => entries.head?
  else entries.head?

/-- `sorted(MODEL_VARIATIONS.items(), key=lambda x: len(x[0]), reverse=True)`. -/
def sortedVariations : List (String × String) :=
  sortLenDescBy (fun p => p.1.length) MODEL_VARIATIONS

/-- Step 1 of `_find_model_in_text`: variation keys, longest first; a hit whose
canonical name is a key of the model index always returns. -/
def stage1 (cat : Catalog) (text normalized : List Char) (label : Option String) :
    Option (Mfr × Model) :=
  firstSome
    (fun p =>
      if containsSub p.1.data text || containsSub p.1.data normalized then
        (if (modelEntries cat p.2).isEmpty then none
         else selectEntry (modelEntries cat p.2) label)
      else none)
    sortedVariations

/-- Step 2 of `_find_model_in_text`: exact model-index keys, longest first. -/
def stage2 (cat : Catalog) (text normalized : List Char) (label : Option String) :
    Option (Mfr × Model) :=
  firstSome
    (fun name =>
      if containsSub name.data normalized || containsSub name.data text then
        (if (modelEntries cat name).isEmpty then none
         else selectEntry (modelEntries cat name) label)
      else none)
    (sortLenDescBy String.length (modelKeys cat))

/-- Step 3 of `_find_model_in_text`: the first whitespace token of the
normalized text, resolved through `MODEL_VARIATIONS` (identity if absent). -/
def stage3 (cat : Catalog) (normalized : List Char) (label : Option String) :
    Option (Mfr × Model) :=
  match firstWordOf normalized with
  | none => none
  | some fw =>
    if (modelEntries cat (lookupStrD MODEL_VARIATIONS (String.mk fw) (String.mk fw))).isEmpty
    then none
    else
      selectEntry (modelEntries cat (lookupStrD MODEL_VARIATIONS (String.mk fw) (String.mk fw)))
        label

/-- `_find_model_in_text`. -/
def findModelInText (cat : Catalog) (text : List Char) (label : Option String) :
    Option (Mfr × Model) :=
  match stage1 cat text (normalizeModelText text) label with
  | some r => some r
  | none =>
    match stage2 cat text (normalizeModelText text) label with
    | some r => some r
    | none => stage3 cat (normalizeModelText text) label

/-! ### `_check_keyword_in_title` and `_find_best_trim` -/

/-- Search for `(?<![A-Za-z0-9])N(?![A-Za-z0-9])`: an `N` not flanked by ASCII
alphanumerics; `prev` is the character before the current position. -/
def standaloneNAux (prev : Option Char) : List Char → Bool
  | [] => false
  | c :: rest =>
    (c = 'N'
      && (match prev with
          | none => true
          | some p => !isAsciiAlnum p)
      && (match rest with
          | [] => true
          | d :: _ => !isAsciiAlnum d))
    || standaloneNAux (some c) rest

/-- `_check_keyword_in_title`. -/
def checkKeywordInTitle (title : List Char) (kw : String) : Bool :=
  if kw == "N" then standaloneNAux none title
  else containsSub kw.data title

/-- Per-trim score of `_find_best_trim`: year-range proximity (+10 exact start
year, +5 within two years), fuel-type compatibility (+5 or -3), and the keyword
list `["N"]` (+3 both, -2 title-only). -/
def scoreTrim (titleYear : Option (Char × Char)) (title : List Char)
    (fuelType : Option String) (t : Trim) : Int :=
  let trimName := (t.trim.getD "").data
  let yearScore : Int :=
    match findTrimYear trimName, titleYear with
    | some ty, some tit =>
      if tit = ty then 10
      else if (yearToInt tit - yearToInt ty).natAbs ≤ 2 then 5
      else 0
    | _, _ => 0
  let fuelScore : Int :=
    if fuelType == some "하이브리드" then
      (if containsSub "하이브리드".data trimName then 5 else -3)
    else if fuelType == some "전기" then
      (if containsSub "일렉트릭".data trimName || containsSub "EV".data trimName
          || containsSub "전기".data trimName then 5 else -3)
    else if fuelType == some "플러그인하이브리드" then
      (if containsSub "플러그인".data trimName || containsSub "PHEV".data trimName then 5 else -3)
    else 0
  let kwScore : Int :=
    let titleHas := checkKeywordInTitle title "N"
    let trimHas := containsSub "N".data trimName
    if titleHas && trimHas then 3 else if titleHas && !trimHas then -2 else 0
  yearScore + fuelScore + kwScore

/-- One step of the best-score loop of `_find_best_trim` (strict `>`: ties keep
the earlier trim). -/
def bestStep (titleYear : Option (Char × Char)) (title : List Char)
    (fuelType : Option String) (acc : Option Trim × Int) (t : Trim) : Option Trim × Int :=
  if acc.2 < scoreTrim titleYear title fuelType t then
    (some t, scoreTrim titleYear title fuelType t)
  else acc

/-- `_find_best_trim`: loop from `(None, -1)`; if the final best score is
still negative, fall back to the first trim; only an empty list gives `None`. -/
def findBestTrim (trims : List Trim) (title : List Char) (fuelType : Option String) :
    Option Trim :=
  match trims with
  | [] => none
  | t0 :: _ =>
    if 0 ≤ (trims.foldl (bestStep (findTrimYear title) title fuelType) (none, -1)).2 then
      (trims.foldl (bestStep (findTrimYear title) title fuelType) (none, -1)).1
    else some t0

/-! ### `_extract_manufacturer_from_title` and `match_car_model` -/

/-- The Genesis model alternation `(G70|G80|G90|GV60|GV70|GV80)`. -/
def GENESIS_CODES : List String := ["G70", "G80", "G90", "GV60", "GV70", "GV80"]

/-- `\s+(G70|...|GV80)` at the current position, case-insensitively. -/
def genesisTailAt (l : List Char) : Bool :=
  match matchPat .ws1 l with
  | none => false
  | some r => GENESIS_CODES.any (fun c => (matchCIList c.data r).isSome)

/-- One position of the search for
`GENESIS\s+(G70|...)|제네시스\s+(G70|...)` (`re.IGNORECASE`). -/
def genesisAt (l : List Char) : Bool :=
  (match matchCIList "GENESIS".data l with
   | some r => genesisTailAt r
   | none => false)
  || (match matchCIList "제네시스".data l with
      | some r => genesisTailAt r
      | none => false)

/-- `re.search` for the Genesis brand-model pattern. -/
def hasGenesisModel : List Char → Bool
  | [] => false
  | c :: rest => genesisAt (c :: rest) || hasGenesisModel rest

/-- One position of the search for `TESLA\s+(MODEL|모델)` (`re.IGNORECASE`). -/
def teslaAt (l : List Char) : Bool :=
  match matchCIList "TESLA".data l with
  | some r =>
    (match matchPat .ws1 r with
     | some r2 => (matchCIList "MODEL".data r2).isSome || (matchCIList "모델".data r2).isSome
     | none => false)
  | none => false

/-- `re.search` for the Tesla pattern. -/
def hasTeslaModel : List Char → Bool
  | [] => false
  | c :: rest => teslaAt (c :: rest) || hasTeslaModel rest

/-- `re.match(r'^\[([^\]]+)\]\s*', title)`: a bracketed prefix; returns the
bracket content and the text after the bracket and its trailing whitespace. -/
def bracketAt (l : List Char) : Option (List Char × List Char) :=
  match l with
  | '[' :: rest =>
    (match rest.span (fun c => !(c = ']')) with
     | (inner, ']' :: r2) => if inner.isEmpty then none else some (inner, r2.dropWhile pyWs)
     | _ => none)
  | _ => none

/-- `re.match(r'^([^\(]+)(\([^\)]+\))?', first)`: returns `(group(0),
group(1))` — the leading non-parenthesis run with and without the optional
parenthesized qualifier. -/
def parenHead (first : List Char) : Option (List Char × List Char) :=
  match first.span (fun c => !(c = '(')) with
  | ([], _) => none
  | (base, rest) =>
    match rest with
    | '(' :: r2 =>
      (match r2.span (fun c => !(c = ')')) with
       | (run, ')' :: _) =>
         if run.isEmpty then some (base, base)
         else some (base ++ '(' :: (run ++ [')']), base)
       | _ => some (base, base))
    | _ => some (base, base)

/-- The shared shape of `_extract_manufacturer_from_title` (after its special
cases) and `_extract_manufacturer` of the title parser: bracketed prefix, then
the first whitespace token with and without its parenthesized qualifier. -/
def extractMfrGeneric (aliasMap : List (String × String)) (title : List Char) :
    Option String × List Char :=
  match bracketAt title with
  | some (raw, remaining) =>
    (some (lookupStrD aliasMap (String.mk raw) (String.mk raw)), remaining)
  | none =>
    match splitMax1 title with
    | some (first, rest) =>
      (match parenHead first with
       | some (full, base) =>
         match lookupStr aliasMap (String.mk full) with
         | some v => (some v, rest)
         | none =>
           (match lookupStr aliasMap (String.mk base) with
            | some v => (some v, rest)
            | none => (none, title))
       | none => (none, title))
    | none => (none, title)

/-- `_extract_manufacturer_from_title`. -/
def extractManufacturerFromTitle (title : List Char) : Option String × List Char :=
  if hasGenesisModel title then (some "제네시스", title)
  else if hasTeslaModel title then (some "테슬라", title)
  else extractMfrGeneric MANUFACTURER_LABEL_MAP title

/-- The fuel-type hint block of `match_car_model`. -/
def fuelHint (title : List Char) : Option String :=
  if containsSub "(H)".data title || containsSub "(HEV)".data title
      || containsSub "하이브리드".data title then
    some "하이브리드"
  else if containsSub "(PHEV)".data title || containsSub "플러그인".data title then
    some "플러그인하이브리드"
  else if containsSub "EV".data title || containsSub "일렉트릭".data title
      || containsSub "전기".data title then
    some "전기"
  else none

/-- Step 2 of `match_car_model`: the manufacturer-index lookup guarded by
`if mfr_label and mfr_label in mfr_index` (both fields set together). -/
def matchBase (cat : Catalog) (mfrLabel : Option String) : MatchResult :=
  if optTruthy mfrLabel then
    match mfrIndexLookup cat (mfrLabel.getD "") with
    | some m =>
      { MatchResult.empty with manufacturer_id := m.id, manufacturer_name := m.label }
    | none => MatchResult.empty
  else MatchResult.empty

/-- Step 3 of `match_car_model`: model lookup on the remainder, retried on the
full title when a manufacturer label is present. -/
def matchModelLookup (cat : Catalog) (tl remaining : List Char) (mfrLabel : Option String) :
    Option (Mfr × Model) :=
  match findModelInText cat remaining mfrLabel with
  | some r => some r
  | none => if optTruthy mfrLabel then findModelInText cat tl mfrLabel else none

/-- The `if not result.manufacturer_id` backfill inside `match_car_model`:
both manufacturer fields come from the matched pair when step 2 left the id
falsy. -/
def matchWithMfr (base : MatchResult) (mi : Mfr) : MatchResult :=
  if optTruthy base.manufacturer_id then base
  else { base with manufacturer_id := mi.id, manufacturer_name := mi.label }

/-- Steps 3–4 of `match_car_model` continued: the model fields and the trim
scorer (the two `findBestTrim` occurrences are the single Python evaluation,
duplicated because the engine is pure). -/
def matchFinish (base : MatchResult) (tl : List Char) (mm : Option (Mfr × Model)) :
    MatchResult :=
  match mm with
  | none => base
  | some (mi, mo) =>
    { matchWithMfr base mi with
      model_id := mo.id
      model_name := mo.model
      trim_id :=
        match findBestTrim mo.trims tl (fuelHint tl) with
        | some t => t.id
        | none => none
      trim_name :=
        match findBestTrim mo.trims tl (fuelHint tl) with
        | some t => t.trim
        | none => none }

/-- `match_car_model`. -/
def matchCarModel (cat : Catalog) (title : String) : MatchResult :=
  if title == "" then MatchResult.empty
  else
    matchFinish
      (matchBase cat (extractManufacturerFromTitle title.data).1)
      title.data
      (matchModelLookup cat title.data (extractManufacturerFromTitle title.data).2
        (extractManufacturerFromTitle title.data).1)


/-! ### `title_parser.py` -/

/-- `ParsedTitle` dataclass. -/
structure ParsedTitle where
  manufacturer_id : Option String
  model_id : Option String
  trim_id : Option String
  manufacturer : Option String
  model : Option String
  sub_model : Option String
  trim : Option String
  engine_cc : Option Nat
  fuel_type : Option String
deriving DecidableEq

/-- `ParsedTitle()` with the dataclass defaults. -/
def ParsedTitle.empty : ParsedTitle :=
  ⟨none, none, none, none, none, none, none, none, none⟩

/-- `\s*cc` (`re.IGNORECASE`) at the current position; returns the remainder
after the `cc`. -/
def ccSuffixRest (l : List Char) : Option (List Char) :=
  match l.dropWhile pyWs with
  | x :: y :: rest3 => if x.toLower == 'c' && y.toLower == 'c' then some rest3 else none
  | _ => none

/-- Match of `(\d{3,4})\s*cc` (`re.IGNORECASE`) at the current position,
greedy on the digit count; returns the captured number. -/
def ccAt (l : List Char) : Option Nat :=
  match l with
  | a :: b :: c :: rest =>
    if isDigit09 a && isDigit09 b && isDigit09 c then
      match rest with
      | d :: rest2 =>
        if isDigit09 d && (ccSuffixRest rest2).isSome then
          some (((digVal a * 10 + digVal b) * 10 + digVal c) * 10 + digVal d)
        else if (ccSuffixRest rest).isSome then
          some ((digVal a * 10 + digVal b) * 10 + digVal c)
        else none
      | [] => none
    else none
  | _ => none

/-- Match of `\d\.\d` at the current position; returns the two digits. -/
def dotDigitAt : List Char → Option (Nat × Nat)
  | a :: '.' :: b :: _ =>
    if isDigit09 a && isDigit09 b then some (digVal a, digVal b) else none
  | _ => none

/-- `_extract_engine_cc`: first `(\d{3,4})\s*cc`, then `(\d\.\d)\s*(?:터보|T)?`,
then `R?(\d\.\d)` — the optional parts never change the capture, so the last
two patterns reduce to the first `\d\.\d` found.  Python computes
`int(float("a.b") * 1000)`; for one-decimal literals this is `a*1000 + b*100`,
which is how it is modelled here. -/
def extractEngineCc (title : List Char) : Option Nat :=
  match findFirst ccAt title with
  | some n => some n
  | none =>
    match findFirst (fun l => dotDigitAt l) title with
    | some p => some (p.1 * 1000 + p.2 * 100)
    | none =>
      match findFirst (fun l => dotDigitAt l) title with
      | some p => some (p.1 * 1000 + p.2 * 100)
      | none => none

/-- `_extract_fuel_type`: EV markers first, then hybrid markers, then the
alias table in insertion order (the upper-cased title is used for the Latin
markers, the raw title for the Korean ones and the table loop). -/
def extractFuelType (title : List Char) : Option String :=
  let up := title.map Char.toUpper
  if containsSub "일렉트릭".data title || containsSub "ELECTRIC".data up
      || containsSub "EV".data up then
    (if containsSub "FCEV".data up then some "수소" else some "전기")
  else if containsSub "하이브리드".data title || containsSub "HEV".data up
      || containsSub "HYBRID".data up then
    (if containsSub "PHEV".data up then some "플러그인하이브리드" else some "하이브리드")
  else
    firstSome
      (fun p => if containsSub p.1.data title then some p.2 else none)
      FUEL_TYPE_ALIASES

/-- Match of `\(([A-Z]{1,3}\d{1,3})\)` at the current position; returns the
capture. -/
def subModelP1At (l : List Char) : Option (List Char) :=
  match l with
  | '(' :: rest =>
    let s1 := rest.span isUpperAZ
    let s2 := s1.2.span isDigit09
    (match s2.2 with
     | ')' :: _ =>
       if 1 ≤ s1.1.length && s1.1.length ≤ 3 && 1 ≤ s2.1.length && s2.1.length ≤ 3 then
         some (s1.1 ++ s2.1)
       else none
     | _ => none)
  | _ => none

/-- Match of `\(([A-Z]\d[A-Z])\)` at the current position. -/
def subModelP2At : List Char → Option (List Char)
  | '(' :: a :: b :: c :: ')' :: _ =>
    if isUpperAZ a && isDigit09 b && isUpperAZ c then some [a, b, c] else none
  | _ => none

/-- Match of `([A-Z]\d{3})` at the current position. -/
def subModelP3At : List Char → Option (List Char)
  | a :: b :: c :: d :: _ =>
    if isUpperAZ a && isDigit09 b && isDigit09 c && isDigit09 d then some [a, b, c, d]
    else none
  | _ => none

/-- Match of `\(([A-Z]{2,3}\d)\)` at the current position. -/
def subModelP4At (l : List Char) : Option (List Char)  :=
  match l with
  | '(' :: rest =>
    let s1 := rest.span isUpperAZ
    (match s1.2 with
     | d :: ')' :: _ =>
       if 2 ≤ s1.1.length && s1.1.length ≤ 3 && isDigit09 d then some (s1.1 ++ [d])
       else none
     | _ => none)
  | _ => none

/-- `_extract_sub_model`: the four patterns tried in order, `re.search` each. -/
def extractSubModel (title : List Char) : Option String :=
  match findFirst subModelP1At title with
  | some s => some (String.mk s)
  | none =>
    match findFirst subModelP2At title with
    | some s => some (String.mk s)
    | none =>
      match findFirst subModelP3At title with
      | some s => some (String.mk s)
      | none =>
        match findFirst subModelP4At title with
        | some s => some (String.mk s)
        | none => none

/-- The literal members of `MODEL_SUFFIX_PATTERNS` (all before the two
anchored ones). -/
def MODEL_SUFFIX_LITS : List String := ["(DM)", "(DN8)", "(CN7)", "(NX4)", "(RG3)", "(G)"]

/-- `_normalize_model_name`: compound names first (dict order, first hit),
otherwise the suffix patterns in list order — the literals globally, then the
end-anchored `MD$` and `R$` — then `strip()`. -/
def normalizeModelName (model : List Char) : List Char :=
  if model.isEmpty then model
  else
    match firstSome
        (fun p => if containsSub p.1.data model then some p.2.data else none)
        COMPOUND_MODEL_NAMES with
    | some n => n
    | none =>
      let m1 := MODEL_SUFFIX_LITS.foldl (fun t s => replaceAllEmpty s.data t) model
      let m2 := if "MD".data.isSuffixOf m1 then m1.take (m1.length - 2) else m1
      let m3 := if "R".data.isSuffixOf m2 then m2.take (m2.length - 1) else m2
      pyStrip m3

/-- Match of `\d{3,4}\s*cc` (`re.IGNORECASE`) at the current position for the
removal sub; returns the remainder. -/
def ccMatchAt (l : List Char) : Option (List Char) :=
  match l with
  | a :: b :: c :: rest =>
    if isDigit09 a && isDigit09 b && isDigit09 c then
      match rest with
      | d :: rest2 =>
        if isDigit09 d && (ccSuffixRest rest2).isSome then ccSuffixRest rest2
        else ccSuffixRest rest
      | [] => none
    else none
  | _ => none

/-- Match of `\d\.\d\s*(?:터보|T)?` at the current position; the whitespace
run is greedy, then `터보` or `T` is taken when present. -/
def dotDigitTurboAt (l : List Char) : Option (List Char) :=
  match l with
  | a :: '.' :: b :: rest =>
    if isDigit09 a && isDigit09 b then
      let r := rest.dropWhile pyWs
      if "터보".data.isPrefixOf r then some (r.drop 2)
      else
        match r with
        | 'T' :: r2 => some r2
        | _ => some r
    else none
  | _ => none

/-- The text after the first occurrence of `pat`
(`s[s.find(pat) + len(pat):]`; only used when `pat` occurs). -/
def afterFirst (pat : List Char) : List Char → List Char
  | [] => []
  | c :: rest =>
    if pat.isPrefixOf (c :: rest) then (c :: rest).drop pat.length
    else afterFirst pat rest

/-- `_extract_model_and_trim` (the `manufacturer` argument is unused in the
source body and kept for fidelity). -/
def extractModelAndTrim (title : List Char) (_manufacturer : Option String) :
    Option (List Char) × Option (List Char) :=
  if title.isEmpty then (none, none)
  else
    let originalTitle := title
    let t1 := removeAll (fun l => (yearRangeAt l).map (fun r => r.2.2)) title
    let t2 := removeAll ccMatchAt t1
    let t3 := removeAll dotDigitTurboAt t2
    let t4 := FUEL_TYPE_ALIASES.foldl (fun t p => replaceAllEmpty p.1.data t) t3
    let t5 := pyStrip (collapseWs t4)
    let t6 := pyStrip (stripModelPfx t5)
    match firstSome
        (fun p => if containsSub p.1.data originalTitle then some p else none)
        COMPOUND_MODEL_NAMES with
    | some p =>
      let a1 := pyStrip (afterFirst p.1.data originalTitle)
      let a2 := removeAll (fun l => (yearRangeAt l).map (fun r => r.2.2)) a1
      let a3 := removeAll ccMatchAt a2
      let a4 := pyStrip (collapseWs a3)
      (some p.2.data, if 2 < a4.length then some a4 else none)
    | none =>
      match splitMax1 t6 with
      | none => (none, none)
      | some (m0, rest) =>
        let m := normalizeModelName m0
        let trimv : Option (List Char) :=
          if rest.isEmpty then none
          else
            let tv := pyStrip rest
            if tv.length < 2 then none else some tv
        (some m, trimv)

/-- `parse_title`; the input is `Option String` because the Python function is
also called with `None`. -/
def parseTitle (cat : Catalog) (title : Option String) : ParsedTitle :=
  if !optTruthy title then ParsedTitle.empty
  else
    let t := title.getD ""
    let tl := t.data
    let mr := matchCarModel cat t
    let r1 : ParsedTitle :=
      { ParsedTitle.empty with
        manufacturer_id := mr.manufacturer_id
        model_id := mr.model_id
        trim_id := mr.trim_id
        manufacturer := if optTruthy mr.manufacturer_name then mr.manufacturer_name else none
        model := if optTruthy mr.model_name then mr.model_name else none
        trim := if optTruthy mr.trim_name then mr.trim_name else none }
    let em := extractMfrGeneric MANUFACTURER_ALIASES tl
    let r2 := if !optTruthy r1.manufacturer then { r1 with manufacturer := em.1 } else r1
    let remaining := em.2
    let r3 :=
      { r2 with
        engine_cc := extractEngineCc tl
        fuel_type := extractFuelType tl
        sub_model := extractSubModel tl }
    if !optTruthy r3.model then
      let mt := extractModelAndTrim remaining r3.manufacturer
      let r4 := { r3 with model := mt.1.map String.mk }
      if !optTruthy r4.trim then { r4 with trim := mt.2.map String.mk } else r4
    else r3

/-- The canonical fuel enumeration named by the specification. -/
def fuelEnum : List String :=
  ["가솔린", "디젤", "LPG", "전기", "하이브리드", "플러그인하이브리드", "수소"]

/-- `normalize_fuel`. -/
def normalizeFuel (rawFuel : String) : Option String :=
  if rawFuel == "" then none
  else
    match lookupStr FUEL_TYPE_ALIASES (String.mk (pyStrip rawFuel.data)) with
    | some v => some v
    | none =>
      if (lookupStr USAGE_TYPE_ALIASES (String.mk (pyStrip rawFuel.data))).isSome then none
      else some (String.mk (pyStrip rawFuel.data))

/-- `normalize_transmission`. -/
def normalizeTransmission (rawTrans : String) : Option String :=
  if rawTrans == "" then none
  else
    let s := String.mk (pyStrip rawTrans.data)
    some (lookupStrD TRANSMISSION_ALIASES s s)

/-- `normalize_usage_type`. -/
def normalizeUsageType (rawFuel : String) : Option String :=
  if rawFuel == "" then none
  else
    let s := String.mk (pyStrip rawFuel.data)
    lookupStr USAGE_TYPE_ALIASES s

/-- `normalize_score`. -/
def normalizeScore (rawScore : String) : Option String :=
  if rawScore == "" then none
  else
    if (subSlash (pyStrip rawScore.data)).isEmpty then none
    else some (String.mk (subSlash (pyStrip rawScore.data)))

/-! ### Concrete instances used to settle the claims

Small catalogs with the shape the claims describe (the real
`car_models.json` is run-time data; the claims quantify over titles and
catalog contents, so explicit witnesses are enough to decide them). -/

/-- 현대 with a single model (no K5). -/
def hyundaiMfr : Mfr := ⟨some "hyundai", some "현대", [⟨some "sonata", some "쏘나타", []⟩]⟩

/-- The 기아 K5 model. -/
def kiaK5 : Model := ⟨some "k5", some "K5", []⟩

/-- 기아, carrying K5. -/
def kiaMfr : Mfr := ⟨some "kia", some "기아", [kiaK5]⟩

/-- Catalog in which K5 exists only under 기아. -/
def catC1 : Catalog := ⟨[hyundaiMfr, kiaMfr], []⟩

/-- BMW M3. -/
def bmwM3 : Model := ⟨some "m3", some "M3", []⟩

/-- BMW, carrying M3. -/
def bmwMfr : Mfr := ⟨some "bmw", some "BMW", [bmwM3]⟩

/-- 르노삼성 XM3. -/
def rsXM3 : Model := ⟨some "xm3", some "XM3", []⟩

/-- 르노삼성, carrying XM3. -/
def rsMfr : Mfr := ⟨some "rs", some "르노삼성", [rsXM3]⟩

/-- Catalog containing both XM3 (르노삼성) and M3 (BMW). -/
def catC2 : Catalog := ⟨[rsMfr], [bmwMfr]⟩

/-- A trim whose name embeds the generation code `B8` and no year range. -/
def trimB8 : Trim := ⟨some "t-b8", some "2.0 TDI B8"⟩

/-- A trim with a year range two years away from the title year 13. -/
def trimY15 : Trim := ⟨some "t-y15", some "2.0 TDI (15년~현재)"⟩

/-- A title with an exact generation-code token `B8` and year range 13. -/
def titleC3 : String := "아우디 A4 2.0 TDI B8 (13년~14년)"

/-- A trim whose embedded range starts in 05. -/
def trimT05 : Trim := ⟨some "t05", some "2.0 TDI (05년~06년)"⟩

/-- A trim whose embedded range starts in 13. -/
def trimT13 : Trim := ⟨some "t13", some "2.0 TDI (13년~14년)"⟩

/-- A title with two parentheticals both of the `TRIM_YEAR_PATTERN` form. -/
def titleC4two : String := "아우디 A4(05년~16년) 2.0 TDI B8 (13년~14년)"

/-- The specification's own example title: its first parenthetical `(05~16년)`
is not of the `(NN년~...)` form. -/
def titleC4spec : String := "아우디 A4(05~16년) 2.0 TDI B8 (13년~14년)"

/-- A manufacturer with non-null ids everywhere but a missing `label`. -/
def badMfr : Mfr := ⟨some "x1", none, [⟨some "mo1", some "쏘나타", []⟩]⟩

/-- Catalog satisfying the id hypothesis of C10 but with a null label. -/
def catBad : Catalog := ⟨[badMfr], []⟩

/-- Non-null ids on every manufacturer, model and trim object. -/
def CatalogIdsOk (cat : Catalog) : Prop :=
  ∀ m ∈ allMfrs cat,
    m.id ≠ none ∧ ∀ mo ∈ m.models, mo.id ≠ none ∧ ∀ t ∈ mo.trims, t.id ≠ none

/-- Non-null labels on every manufacturer object. -/
def CatalogLabelsOk (cat : Catalog) : Prop :=
  ∀ m ∈ allMfrs cat, m.label ≠ none

instance (cat : Catalog) : Decidable (CatalogIdsOk cat) := by
  unfold CatalogIdsOk; infer_instance

instance (cat : Catalog) : Decidable (CatalogLabelsOk cat) := by
  unfold CatalogLabelsOk; infer_instance

/-! ### Helper lemmas -/

theorem head?_memH {α : Type} {l : List α} {a : α} (h : l.head? = some a) : a ∈ l := by
  cases l with
  | nil => simp at h
  | cons x xs => simp at h; simp [h]

theorem getLast?_memH {α : Type} {l : List α} {a : α} (h : l.getLast? = some a) : a ∈ l := by
  rw [List.getLast?_eq_head?_reverse] at h
  simpa using head?_memH h

theorem firstSome_eq_someH {α β : Type} {f : α → Option β} :
    ∀ {l : List α} {r : β}, firstSome f l = some r → ∃ x ∈ l, f x = some r := by
  intro l
  induction l with
  | nil => intro r h; simp [firstSome] at h
  | cons x xs ih =>
    intro r h
    cases hfx : f x with
    | some v =>
      refine ⟨x, List.mem_cons_self x xs, ?_⟩
      simp only [firstSome, hfx] at h
      rw [hfx, h]
    | none =>
      simp only [firstSome, hfx] at h
      obtain ⟨y, hy, hfy⟩ := ih h
      exact ⟨y, List.mem_cons_of_mem x hy, hfy⟩

theorem selectEntry_mem {entries : List (Mfr × Model)} {label : Option String}
    {p : Mfr × Model} (h : selectEntry entries label = some p) : p ∈ entries := by
  unfold selectEntry at h
  split at h
  · split at h
    next q hq => exact Option.some.inj h ▸ List.mem_of_find?_eq_some hq
    next => exact head?_memH h
  · exact head?_memH h

theorem modelEntries_sub {cat : Catalog} {name : String} :
    modelEntries cat name ⊆ allPairs cat :=
  List.filter_subset' _

theorem stage1_prov {cat : Catalog} {text normalized : List Char} {label : Option String}
    {p : Mfr × Model} (h : stage1 cat text normalized label = some p) : p ∈ allPairs cat := by
  obtain ⟨x, _, hx⟩ := firstSome_eq_someH h
  split at hx
  · split at hx
    · exact absurd hx (by simp)
    · exact modelEntries_sub (selectEntry_mem hx)
  · exact absurd hx (by simp)

theorem stage2_prov {cat : Catalog} {text normalized : List Char} {label : Option String}
    {p : Mfr × Model} (h : stage2 cat text normalized label = some p) : p ∈ allPairs cat := by
  obtain ⟨x, _, hx⟩ := firstSome_eq_someH h
  split at hx
  · split at hx
    · exact absurd hx (by simp)
    · exact modelEntries_sub (selectEntry_mem hx)
  · exact absurd hx (by simp)

theorem stage3_prov {cat : Catalog} {normalized : List Char} {label : Option String}
    {p : Mfr × Model} (h : stage3 cat normalized label = some p) : p ∈ allPairs cat := by
  unfold stage3 at h
  split at h
  · exact absurd h (by simp)
  · split at h
    · exact absurd h (by simp)
    · exact modelEntries_sub (selectEntry_mem h)

theorem findModelInText_prov {cat : Catalog} {text : List Char} {label : Option String}
    {p : Mfr × Model} (h : findModelInText cat text label = some p) : p ∈ allPairs cat := by
  unfold findModelInText at h
  split at h
  next r h1 => exact stage1_prov (h1.trans h)
  next =>
    split at h
    next r h2 => exact stage2_prov (h2.trans h)
    next => exact stage3_prov h

theorem allPairs_memH {cat : Catalog} {mi : Mfr} {mo : Model}
    (h : (mi, mo) ∈ allPairs cat) : mi ∈ allMfrs cat ∧ mo ∈ mi.models := by
  unfold allPairs at h
  rw [List.mem_flatMap] at h
  obtain ⟨m, hm, hmo⟩ := h
  rw [List.mem_map] at hmo
  obtain ⟨mo2, hmo2, heq⟩ := hmo
  cases heq
  exact ⟨hm, hmo2⟩

theorem mfrIndexLookup_mem {cat : Catalog} {lab : String} {m : Mfr}
    (h : mfrIndexLookup cat lab = some m) : m ∈ allMfrs cat :=
  List.filter_subset' _ (getLast?_memH h)

theorem matchModelLookup_prov {cat : Catalog} {tl remaining : List Char}
    {label : Option String} {p : Mfr × Model}
    (h : matchModelLookup cat tl remaining label = some p) : p ∈ allPairs cat := by
  unfold matchModelLookup at h
  split at h
  next r h1 => exact findModelInText_prov (h1.trans h)
  next =>
    split at h
    · exact findModelInText_prov h
    · exact absurd h (by simp)

theorem matchBase_cases (cat : Catalog) (lab : Option String) :
    matchBase cat lab = MatchResult.empty ∨
    ∃ m ∈ allMfrs cat, matchBase cat lab =
      { MatchResult.empty with manufacturer_id := m.id, manufacturer_name := m.label } := by
  unfold matchBase
  split
  · cases hq : mfrIndexLookup cat (lab.getD "") with
    | some m => exact Or.inr ⟨m, mfrIndexLookup_mem hq, rfl⟩
    | none => exact Or.inl rfl
  · exact Or.inl rfl

theorem bestFold_inv (ty : Option (Char × Char)) (title : List Char) (fuel : Option String) :
    ∀ (l : List Trim) (acc : Option Trim × Int),
      ((∃ t, acc.1 = some t) ∧ 0 ≤ acc.2) ∨ acc = (none, -1) →
      ((∃ t, (l.foldl (bestStep ty title fuel) acc).1 = some t) ∧
          0 ≤ (l.foldl (bestStep ty title fuel) acc).2) ∨
        l.foldl (bestStep ty title fuel) acc = (none, -1) := by
  intro l
  induction l with
  | nil => intro acc h; simpa using h
  | cons t ts ih =>
    intro acc h
    rw [List.foldl_cons]
    apply ih
    by_cases hlt : acc.2 < scoreTrim ty title fuel t
    · have hb : bestStep ty title fuel acc t = (some t, scoreTrim ty title fuel t) := by
        unfold bestStep; rw [if_pos hlt]
      rw [hb]
      refine Or.inl ⟨⟨t, rfl⟩, ?_⟩
      rcases h with ⟨_, h2⟩ | rfl
      · exact le_of_lt (lt_of_le_of_lt h2 hlt)
      · have hlt2 : (-1 : Int) < scoreTrim ty title fuel t := by simpa using hlt
        omega
    · have hb : bestStep ty title fuel acc t = acc := by
        unfold bestStep; rw [if_neg hlt]
      rw [hb]
      exact h

theorem bestFold_neg (ty : Option (Char × Char)) (title : List Char) (fuel : Option String) :
    ∀ (l : List Trim), (∀ t ∈ l, scoreTrim ty title fuel t < 0) →
      l.foldl (bestStep ty title fuel) (none, -1) = (none, -1) := by
  intro l
  induction l with
  | nil => intro _; rfl
  | cons t ts ih =>
    intro h
    rw [List.foldl_cons]
    have hsc := h t (List.mem_cons_self t ts)
    have hstep : bestStep ty title fuel (none, -1) t = (none, -1) := by
      unfold bestStep
      split
      next hlt =>
        have hlt2 : (-1 : Int) < scoreTrim ty title fuel t := by simpa using hlt
        omega
      next => rfl
    rw [hstep]
    exact ih (fun u hu => h u (List.mem_cons_of_mem t hu))

theorem head?_dropWhileH (p : Char → Bool) :
    ∀ (l : List Char) (c : Char), (l.dropWhile p).head? = some c → p c = false := by
  intro l
  induction l with
  | nil => intro c h; simp at h
  | cons x xs ih =>
    intro c h
    rw [List.dropWhile_cons] at h
    by_cases hx : p x
    · rw [if_pos hx] at h; exact ih c h
    · rw [if_neg hx] at h
      simp only [List.head?_cons, Option.some.injEq] at h
      subst h
      simpa using hx

theorem getLast?_dropWhileH (p : Char → Bool) :
    ∀ (l : List Char), l.dropWhile p ≠ [] → (l.dropWhile p).getLast? = l.getLast? := by
  intro l
  induction l with
  | nil => intro h; simp at h
  | cons x xs ih =>
    intro h
    rw [List.dropWhile_cons] at h ⊢
    by_cases hx : p x
    · rw [if_pos hx] at h ⊢
      rw [ih h]
      cases xs with
      | nil => simp at h
      | cons y ys => rw [List.getLast?_cons_cons]
    · rw [if_neg hx]

theorem dropWhile_id_of_headH (p : Char → Bool) (l : List Char)
    (h : ∀ c, l.head? = some c → p c = false) : l.dropWhile p = l := by
  cases l with
  | nil => rfl
  | cons x xs =>
    rw [List.dropWhile_cons, if_neg]
    simp [h x rfl]

theorem pyStrip_head (l : List Char) :
    ∀ c, (pyStrip l).head? = some c → pyWs c = false := by
  intro c h
  unfold pyStrip at h
  rw [List.head?_reverse] at h
  by_cases hne : ((l.dropWhile pyWs).reverse.dropWhile pyWs) = []
  · rw [hne] at h; simp at h
  · rw [getLast?_dropWhileH pyWs _ hne, List.getLast?_reverse] at h
    exact head?_dropWhileH pyWs l c h

theorem pyStrip_last (l : List Char) :
    ∀ c, (pyStrip l).getLast? = some c → pyWs c = false := by
  intro c h
  unfold pyStrip at h
  rw [List.getLast?_reverse] at h
  exact head?_dropWhileH pyWs _ c h

theorem pyStrip_id (l : List Char)
    (h1 : ∀ c, l.head? = some c → pyWs c = false)
    (h2 : ∀ c, l.getLast? = some c → pyWs c = false) : pyStrip l = l := by
  unfold pyStrip
  rw [dropWhile_id_of_headH pyWs l h1]
  rw [dropWhile_id_of_headH pyWs l.reverse]
  · exact l.reverse_reverse
  · intro c hc
    rw [List.head?_reverse] at hc
    exact h2 c hc

theorem slashMatchAt_cases {l r : List Char} (h : slashMatchAt l = some r) :
    ∃ r2, l.dropWhile pyWs = '/' :: r2 ∧ r = r2.dropWhile pyWs := by
  unfold slashMatchAt at h
  split at h
  next c r2 heq =>
    split at h
    next hc => exact ⟨r2, by rw [← hc]; exact heq, (Option.some.inj h).symm⟩
    next => simp at h
  next => simp at h

theorem slashMatchAt_lt {l r : List Char} (h : slashMatchAt l = some r) :
    r.length < l.length := by
  obtain ⟨r2, hd, hr⟩ := slashMatchAt_cases h
  have h1 : r.length ≤ r2.length := by
    rw [hr]; exact (List.dropWhile_sublist pyWs).length_le
  have h2 : ('/' :: r2).length ≤ l.length := by
    rw [← hd]; exact (List.dropWhile_sublist pyWs).length_le
  simp only [List.length_cons] at h2
  omega

theorem subSlashF_nil : ∀ (n : Nat), subSlashF n [] = [] := by
  intro n; cases n <;> rfl

theorem slashMatchAt_none_head {c : Char} {rest : List Char}
    (hm : slashMatchAt (c :: rest) = none) : c ≠ '/' := by
  intro hc
  subst hc
  unfold slashMatchAt at hm
  rw [List.dropWhile_cons, if_neg (by simp [pyWs])] at hm
  simp at hm

theorem subSlashF_no_slash : ∀ (n : Nat) (l : List Char), l.length ≤ n →
    '/' ∉ subSlashF n l := by
  intro n
  induction n with
  | zero =>
    intro l hl
    have : l = [] := List.eq_nil_of_length_eq_zero (Nat.le_zero.mp hl)
    subst this; simp [subSlashF]
  | succ n ih =>
    intro l hl
    cases l with
    | nil => simp [subSlashF]
    | cons c rest =>
      cases hm : slashMatchAt (c :: rest) with
      | some r2 =>
        simp only [subSlashF, hm]
        have := slashMatchAt_lt hm
        simp only [List.length_cons] at this hl
        exact ih r2 (by omega)
      | none =>
        simp only [subSlashF, hm, List.mem_cons]
        rintro (hc | hmem)
        · exact slashMatchAt_none_head hm hc.symm
        · simp only [List.length_cons] at hl
          exact ih rest (by omega) hmem

theorem subSlashF_id_of_no_slash : ∀ (n : Nat) (l : List Char), l.length ≤ n →
    '/' ∉ l → subSlashF n l = l := by
  intro n
  induction n with
  | zero =>
    intro l hl _
    have : l = [] := List.eq_nil_of_length_eq_zero (Nat.le_zero.mp hl)
    subst this; rfl
  | succ n ih =>
    intro l hl hns
    cases l with
    | nil => rfl
    | cons c rest =>
      cases hm : slashMatchAt (c :: rest) with
      | some r2 =>
        obtain ⟨r2x, hd, _⟩ := slashMatchAt_cases hm
        exact absurd ((List.dropWhile_sublist pyWs).subset (hd ▸ List.mem_cons_self '/' r2x)) hns
      | none =>
        simp only [subSlashF, hm]
        simp only [List.length_cons] at hl
        rw [ih rest (by omega) (fun hmem => hns (List.mem_cons_of_mem c hmem))]

theorem subSlashF_empty : ∀ (n : Nat) (l : List Char), l.length ≤ n →
    subSlashF n l = [] → ∀ c ∈ l, pyWs c = true ∨ c = '/' := by
  intro n
  induction n with
  | zero =>
    intro l hl _
    have : l = [] := List.eq_nil_of_length_eq_zero (Nat.le_zero.mp hl)
    subst this; simp
  | succ n ih =>
    intro l hl he
    cases l with
    | nil => simp
    | cons c rest =>
      cases hm : slashMatchAt (c :: rest) with
      | some r2 =>
        simp only [subSlashF, hm] at he
        obtain ⟨r2x, hd, hr⟩ := slashMatchAt_cases hm
        have hlen := slashMatchAt_lt hm
        simp only [List.length_cons] at hlen hl
        have hall2 := ih r2 (by omega) he
        intro x hx
        have hsplit : c :: rest = (c :: rest).takeWhile pyWs ++ ('/' :: r2x) := by
          rw [← hd]; exact (List.takeWhile_append_dropWhile pyWs (c :: rest)).symm
        rw [hsplit, List.mem_append] at hx
        rcases hx with hx | hx
        · exact Or.inl (List.mem_takeWhile_imp hx)
        · rcases List.mem_cons.mp hx with hx | hx
          · exact Or.inr hx
          · have hsplit2 : r2x = r2x.takeWhile pyWs ++ r2 := by
              rw [hr]; exact (List.takeWhile_append_dropWhile pyWs r2x).symm
            rw [hsplit2, List.mem_append] at hx
            rcases hx with hx | hx
            · exact Or.inl (List.mem_takeWhile_imp hx)
            · exact hall2 x hx
      | none =>
        simp only [subSlashF, hm] at he
        exact absurd he (by simp)

theorem subSlashF_head : ∀ (n : Nat) (l : List Char), l.length ≤ n →
    (∀ c, l.head? = some c → pyWs c = false) →
    ∀ c, (subSlashF n l).head? = some c → pyWs c = false := by
  intro n
  induction n with
  | zero =>
    intro l hl hh
    have : l = [] := List.eq_nil_of_length_eq_zero (Nat.le_zero.mp hl)
    subst this; intro c hc; simp [subSlashF] at hc
  | succ n ih =>
    intro l hl hh
    cases l with
    | nil => intro c hc; simp [subSlashF] at hc
    | cons c0 rest =>
      cases hm : slashMatchAt (c0 :: rest) with
      | some r2 =>
        simp only [subSlashF, hm]
        obtain ⟨r2x, _, hr⟩ := slashMatchAt_cases hm
        have hlen := slashMatchAt_lt hm
        simp only [List.length_cons] at hlen hl
        exact ih r2 (by omega) (fun d hd => head?_dropWhileH pyWs r2x d (hr ▸ hd))
      | none =>
        simp only [subSlashF, hm]
        intro c hc
        simp only [List.head?_cons, Option.some.injEq] at hc
        rw [← hc]
        exact hh c0 rfl

theorem subSlashF_last : ∀ (n : Nat) (l : List Char), l.length ≤ n →
    (∀ c, l.getLast? = some c → pyWs c = false) →
    ∀ c, (subSlashF n l).getLast? = some c → pyWs c = false := by
  intro n
  induction n with
  | zero =>
    intro l hl hh
    have : l = [] := List.eq_nil_of_length_eq_zero (Nat.le_zero.mp hl)
    subst this; intro c hc; simp [subSlashF] at hc
  | succ n ih =>
    intro l hl hh
    cases l with
    | nil => intro c hc; simp [subSlashF] at hc
    | cons c0 rest =>
      simp only [List.length_cons] at hl
      cases hm : slashMatchAt (c0 :: rest) with
      | some r2 =>
        simp only [subSlashF, hm]
        obtain ⟨r2x, hd, hr⟩ := slashMatchAt_cases hm
        have hlen := slashMatchAt_lt hm
        simp only [List.length_cons] at hlen
        refine ih r2 (by omega) ?_
        intro d hdl
        have hr2ne : r2 ≠ [] := by
          intro he; rw [he] at hdl; simp at hdl
        have hr2xne : r2x ≠ [] := by
          intro he; rw [he] at hr; simp at hr; exact hr2ne hr
        have e1 : r2.getLast? = r2x.getLast? := by
          rw [hr]; exact getLast?_dropWhileH pyWs r2x (by rw [← hr]; exact hr2ne)
        have e2 : ('/' :: r2x).getLast? = r2x.getLast? := by
          cases r2x with
          | nil => exact absurd rfl hr2xne
          | cons y ys => rw [List.getLast?_cons_cons]
        have e3 : ((c0 :: rest).dropWhile pyWs).getLast? = (c0 :: rest).getLast? :=
          getLast?_dropWhileH pyWs (c0 :: rest) (by rw [hd]; simp)
        apply hh d
        rw [← e3, hd, e2, ← e1]
        exact hdl
      | none =>
        simp only [subSlashF, hm]
        intro c hc
        cases hX : subSlashF n rest with
        | nil =>
          rw [hX] at hc
          simp only [List.getLast?_singleton, Option.some.injEq] at hc
          rw [← hc]
          cases rest with
          | nil => exact hh c0 (by simp)
          | cons r rs =>
            by_contra hcws
            have hcw : pyWs c0 = true := by
              cases hpc : pyWs c0
              · exact absurd hpc hcws
              · rfl
            have hall := subSlashF_empty n (r :: rs) (by omega) hX
            cases hdw : (r :: rs).dropWhile pyWs with
            | nil =>
              have hallws : ∀ a ∈ r :: rs, pyWs a = true := List.dropWhile_eq_nil_iff.mp hdw
              obtain ⟨d, hdsome⟩ : ∃ d, (r :: rs).getLast? = some d := by
                cases hgl : (r :: rs).getLast? with
                | none => simp at hgl
                | some d => exact ⟨d, rfl⟩
              have hdw2 : pyWs d = false := by
                apply hh d
                rw [List.getLast?_cons_cons]
                exact hdsome
              have := hallws d (getLast?_memH hdsome)
              rw [hdw2] at this
              exact absurd this (by simp)
            | cons c2 cs =>
              have hc2 : pyWs c2 = false := head?_dropWhileH pyWs (r :: rs) c2 (by rw [hdw]; rfl)
              have hc2mem : c2 ∈ r :: rs :=
                (List.dropWhile_sublist pyWs).subset (by rw [hdw]; exact List.mem_cons_self c2 cs)
              have hc2slash : c2 = '/' := by
                rcases hall c2 hc2mem with hws | hsl
                · rw [hc2] at hws; exact absurd hws (by simp)
                · exact hsl
              have : slashMatchAt (c0 :: r :: rs) = some (cs.dropWhile pyWs) := by
                unfold slashMatchAt
                rw [List.dropWhile_cons, if_pos hcw, hdw, hc2slash]
                simp
              rw [this] at hm
              exact absurd hm (by simp)
        | cons x xs =>
          rw [hX, List.getLast?_cons_cons] at hc
          cases rest with
          | nil => rw [subSlashF_nil n] at hX; exact absurd hX (by simp)
          | cons r rs =>
            refine ih (r :: rs) (by omega) ?_ c (hX ▸ hc)
            intro d hd
            apply hh d
            rw [List.getLast?_cons_cons]
            exact hd

theorem containsSub_iff (needle : List Char) :
    ∀ (hay : List Char), containsSub needle hay = true ↔ ∃ l r, hay = l ++ needle ++ r := by
  intro hay
  induction hay with
  | nil =>
    simp only [containsSub, List.isEmpty_iff]
    constructor
    · intro h; exact ⟨[], [], by simp [h]⟩
    · rintro ⟨l, r, h⟩
      have hlen := congrArg List.length h
      simp only [List.length_nil, List.length_append] at hlen
      exact List.eq_nil_of_length_eq_zero (by omega)
  | cons x xs ih =>
    simp only [containsSub, Bool.or_eq_true]
    constructor
    · rintro (hp | hc)
      · rw [List.isPrefixOf_iff_prefix] at hp
        obtain ⟨t, ht⟩ := hp
        exact ⟨[], t, by simp [← ht]⟩
      · obtain ⟨l, r, hl⟩ := ih.mp hc
        exact ⟨x :: l, r, by simp [hl]⟩
    · rintro ⟨l, r, hl⟩
      cases l with
      | nil =>
        refine Or.inl ?_
        rw [List.isPrefixOf_iff_prefix]
        exact ⟨r, by simpa using hl.symm⟩
      | cons y ys =>
        refine Or.inr (ih.mpr ?_)
        simp only [List.cons_append, List.cons.injEq] at hl
        exact ⟨ys, r, hl.2⟩

/-! ### Claims -/

/-- C3 counterexample: in `_find_best_trim`, the trim whose name carries the
exact generation code `B8` of the title loses to the trim with a merely
proximate year range — there is no generation-code score. -/
theorem C3_counterexample :
    findBestTrim [trimB8, trimY15] titleC3.data none = some trimY15 ∧ trimY15 ≠ trimB8 :=
  ⟨rfl, by decide⟩

/-- C3 (amended): the trim scorer has no generation-code signal at all — a
trim whose name embeds no year range scores 0 under a fuel-free title without
a standalone `N`, whatever generation codes the title or trim carry — so a
proximate year-range trim (+5) outranks an exact generation-code trim (0). -/
theorem C3_no_generation_code_score :
    (∀ (ty : Option (Char × Char)) (title : List Char) (t : Trim),
        findTrimYear (t.trim.getD "").data = none →
        checkKeywordInTitle title "N" = false →
        scoreTrim ty title none t = 0) ∧
    findBestTrim [trimB8, trimY15] titleC3.data none = some trimY15 := by
  refine ⟨?_, rfl⟩
  intro ty title t h1 h2
  simp [scoreTrim, h1, h2]

/-- C3 witness: the generation-code trim of the counterexample scores 0. -/
theorem C3_no_generation_code_score_witness :
    scoreTrim (some ('1', '3')) titleC3.data none trimB8 = 0 :=
  C3_no_generation_code_score.1 (some ('1', '3')) titleC3.data trimB8 rfl rfl

/-- C4 counterexample: with two ranges of the form `(NN년~...)` in the title,
`_find_best_trim` scores against the first one (05), not the last (13). -/
theorem C4_counterexample :
    findBestTrim [trimT05, trimT13] titleC4two.data none = some trimT05 ∧
    trimT05 ≠ trimT13 :=
  ⟨rfl, by decide⟩

/-- C4 (amended): `TRIM_YEAR_PATTERN.search` takes the FIRST embedded range of
the form `(NN년~...)`; the specification's example only selects the final range
because its first parenthetical `(05~16년)` does not match the pattern. -/
theorem C4_first_year_range :
    findTrimYear titleC4two.data = some ('0', '5') ∧
    findTrimYear titleC4spec.data = some ('1', '3') ∧
    findBestTrim [trimT05, trimT13] titleC4two.data none = some trimT05 ∧
    findBestTrim [trimT05, trimT13] titleC4spec.data none = some trimT13 :=
  ⟨rfl, rfl, rfl, rfl⟩

/-- C5 (confirmed): `parse_title` on `None` and on the empty string, and
`match_car_model` on the empty string, return the all-`None` records, for any
catalog, without any failure path. -/
theorem C5_null_safety (cat : Catalog) :
    parseTitle cat none = ParsedTitle.empty ∧
    parseTitle cat (some "") = ParsedTitle.empty ∧
    matchCarModel cat "" = MatchResult.empty ∧
    ParsedTitle.empty = ⟨none, none, none, none, none, none, none, none, none⟩ ∧
    MatchResult.empty = ⟨none, none, none, none, none, none⟩ :=
  ⟨rfl, rfl, rfl, rfl, rfl⟩

/-- C6 counterexample: an unrecognized fuel string is passed through, not
mapped to `None`, and it is no member of the claimed enumeration. -/
theorem C6_counterexample :
    normalizeFuel "수입" = some "수입" ∧ "수입" ∉ fuelEnum :=
  ⟨rfl, by decide⟩

/-- C6 (amended): `normalize_fuel` returns `None` on falsy input and on usage
markers, a member of the fuel enumeration on known aliases, and otherwise the
stripped raw value unchanged (a passthrough, not `None`). -/
theorem C6_fuel_normalization :
    (∀ raw : String,
        normalizeFuel raw = none ∨
        (∃ v ∈ fuelEnum, normalizeFuel raw = some v) ∨
        normalizeFuel raw = some (String.mk (pyStrip raw.data))) ∧
    normalizeFuel "" = none ∧ normalizeFuel "자가용" = none ∧
    normalizeFuel "렌터카" = none ∧ normalizeFuel "영업용" = none ∧
    normalizeFuel "휘발유" = some "가솔린" := by
  refine ⟨?_, rfl, rfl, rfl, rfl, rfl⟩
  intro raw
  unfold normalizeFuel
  split
  · exact Or.inl rfl
  · cases hf : lookupStr FUEL_TYPE_ALIASES (String.mk (pyStrip raw.data)) with
    | some v =>
      refine Or.inr (Or.inl ⟨v, ?_, rfl⟩)
      unfold lookupStr at hf
      cases hfind : List.find? (fun p => p.1 == String.mk (pyStrip raw.data))
          FUEL_TYPE_ALIASES with
      | none => rw [hfind] at hf; simp at hf
      | some p =>
        rw [hfind] at hf
        have hmem := List.mem_of_find?_eq_some hfind
        have hv : p.2 = v := by simpa using hf
        have hall : ∀ q ∈ FUEL_TYPE_ALIASES, q.2 ∈ fuelEnum := by decide
        exact hv ▸ hall p hmem
    | none =>
      cases hu : (lookupStr USAGE_TYPE_ALIASES (String.mk (pyStrip raw.data))).isSome with
      | true => exact Or.inl (by simp [hu])
      | false => exact Or.inr (Or.inr (by simp [hu]))

/-- C8 (confirmed): `parse_title` is a pure function of the title and the
catalog snapshot — two invocations agree. -/
theorem C8_determinism (cat : Catalog) (t : Option String) (r₁ r₂ : ParsedTitle)
    (h₁ : parseTitle cat t = r₁) (h₂ : parseTitle cat t = r₂) : r₁ = r₂ :=
  h₁.symm.trans h₂

/-- C8 witness: the determinism theorem applied at a concrete catalog and
title. -/
theorem C8_determinism_witness :
    parseTitle catC1 (some "현대 K5 2.0") = parseTitle catC1 (some "현대 K5 2.0") :=
  C8_determinism catC1 (some "현대 K5 2.0") _ _ rfl rfl

/-- C7 (confirmed): `_find_best_trim` returns `None` exactly on the empty trim
list, always returns the single trim of a singleton list, and falls back to
the first trim when every score is negative. -/
theorem C7_best_trim_totality (title : List Char) (fuel : Option String) :
    (∀ trims : List Trim, findBestTrim trims title fuel = none ↔ trims = []) ∧
    (∀ t : Trim, findBestTrim [t] title fuel = some t) ∧
    (∀ (t0 : Trim) (ts : List Trim),
        (∀ t ∈ t0 :: ts, scoreTrim (findTrimYear title) title fuel t < 0) →
        findBestTrim (t0 :: ts) title fuel = some t0) := by
  refine ⟨?_, ?_, ?_⟩
  · intro trims
    constructor
    · intro h
      cases trims with
      | nil => rfl
      | cons t0 ts =>
        exfalso
        simp only [findBestTrim] at h
        rcases bestFold_inv (findTrimYear title) title fuel (t0 :: ts) (none, -1)
            (Or.inr rfl) with ⟨⟨t, ht⟩, h2⟩ | hr
        · rw [if_pos h2, ht] at h
          simp at h
        · rw [hr] at h
          rw [if_neg (by decide)] at h
          simp at h
    · intro h; subst h; rfl
  · intro t
    simp only [findBestTrim, List.foldl_cons, List.foldl_nil]
    unfold bestStep
    split
    next hlt =>
      split
      next => rfl
      next => rfl
    next hlt =>
      split
      next hge =>
        exfalso
        simp at hge
      next => rfl
  · intro t0 ts hneg
    simp only [findBestTrim]
    rw [bestFold_neg (findTrimYear title) title fuel (t0 :: ts) hneg]
    rw [if_neg (by decide)]

/-- C7 witness: a singleton list whose only trim scores negative (fuel
mismatch) is still returned. -/
theorem C7_best_trim_totality_witness :
    findBestTrim [⟨some "a", some "base"⟩] "x".data (some "하이브리드") =
      some ⟨some "a", some "base"⟩ :=
  (C7_best_trim_totality "x".data (some "하이브리드")).2.2 ⟨some "a", some "base"⟩ []
    (by decide)

/-- C9 (confirmed): `normalize_score` is idempotent on its non-`None` results —
the first application strips edge whitespace and every slash (with its
surrounding whitespace), after which stripping and slash removal change
nothing. -/
theorem C9_normalize_score_idempotent :
    (∀ (x v : String), normalizeScore x = some v → normalizeScore v = some v) ∧
    normalizeScore "AB" = some "AB" := by
  refine ⟨?_, rfl⟩
  intro x v h
  unfold normalizeScore at h
  split at h
  · exact absurd h (by simp)
  · split at h
    · exact absurd h (by simp)
    next hne hemp =>
      have hv : v = String.mk (subSlash (pyStrip x.data)) := (Option.some.inj h).symm
      have hslash : '/' ∉ subSlash (pyStrip x.data) := by
        unfold subSlash
        exact subSlashF_no_slash _ _ le_rfl
      have hhead : ∀ c, (subSlash (pyStrip x.data)).head? = some c → pyWs c = false := by
        unfold subSlash
        exact subSlashF_head _ _ le_rfl (pyStrip_head x.data)
      have hlast : ∀ c, (subSlash (pyStrip x.data)).getLast? = some c → pyWs c = false := by
        unfold subSlash
        exact subSlashF_last _ _ le_rfl (pyStrip_last x.data)
      have hsne : subSlash (pyStrip x.data) ≠ [] := by
        intro he
        exact hemp (by rw [he]; rfl)
      have hdata : v.data = subSlash (pyStrip x.data) := by rw [hv]
      unfold normalizeScore
      rw [if_neg ?vne]
      case vne =>
        intro hveq
        apply hsne
        have : v = "" := by
          cases hb : v == ""
          · rw [hb] at hveq; exact absurd hveq (by simp)
          · exact eq_of_beq hb
        rw [← hdata, this]
      have hps : pyStrip v.data = subSlash (pyStrip x.data) := by
        rw [hdata]
        exact pyStrip_id _ hhead hlast
      have hss : subSlash (pyStrip v.data) = subSlash (pyStrip x.data) := by
        rw [hps]
        unfold subSlash
        exact subSlashF_id_of_no_slash _ _ le_rfl hslash
      rw [if_neg ?sne]
      case sne =>
        rw [hss]
        intro hie
        exact hsne (List.isEmpty_iff.mp hie)
      rw [hss, hv]

/-- C9 witness: the idempotence theorem applied to the separator example. -/
theorem C9_normalize_score_idempotent_witness :
    normalizeScore "A / 4" = some "A4" ∧ normalizeScore "A4" = some "A4" :=
  ⟨rfl, C9_normalize_score_idempotent.1 "A / 4" "A4" rfl⟩

/-- C10 counterexample: a catalog whose ids are all non-null but whose one
manufacturer lacks a label makes `match_car_model` resolve a model (and its
manufacturer id) while `manufacturer_name` stays `None`. -/
theorem C10_counterexample :
    CatalogIdsOk catBad ∧
    matchCarModel catBad "쏘나타 2.0" =
      ⟨some "x1", none, some "mo1", some "쏘나타", none, none⟩ :=
  ⟨by decide, rfl⟩

theorem matchFinish_none (base : MatchResult) (tl : List Char) :
    matchFinish base tl none = base := rfl

theorem matchFinish_fields (base : MatchResult) (tl : List Char) (mi : Mfr) (mo : Model) :
    (matchFinish base tl (some (mi, mo))).model_id = mo.id ∧
    (matchFinish base tl (some (mi, mo))).manufacturer_id
      = (if optTruthy base.manufacturer_id then base.manufacturer_id else mi.id) ∧
    (matchFinish base tl (some (mi, mo))).manufacturer_name
      = (if optTruthy base.manufacturer_id then base.manufacturer_name else mi.label) := by
  refine ⟨rfl, ?_, ?_⟩
  · have h : (matchFinish base tl (some (mi, mo))).manufacturer_id
        = (matchWithMfr base mi).manufacturer_id := rfl
    rw [h]; unfold matchWithMfr; split <;> rfl
  · have h : (matchFinish base tl (some (mi, mo))).manufacturer_name
        = (matchWithMfr base mi).manufacturer_name := rfl
    rw [h]; unfold matchWithMfr; split <;> rfl

/-- C10 (amended): with non-null ids everywhere and non-null manufacturer
labels, a `MatchResult` never carries a trim without its model, nor a model
without its manufacturer id and name. -/
theorem C10_hierarchy (cat : Catalog) (title : String)
    (hid : CatalogIdsOk cat) (hlab : CatalogLabelsOk cat) :
    ((matchCarModel cat title).trim_id ≠ none → (matchCarModel cat title).model_id ≠ none) ∧
    ((matchCarModel cat title).model_id ≠ none →
      (matchCarModel cat title).manufacturer_id ≠ none ∧
      (matchCarModel cat title).manufacturer_name ≠ none) := by
  by_cases he : (title == "") = true
  · have hr : matchCarModel cat title = MatchResult.empty := by
      unfold matchCarModel; rw [if_pos he]
    rw [hr]
    simp [MatchResult.empty]
  · have hr : matchCarModel cat title =
        matchFinish (matchBase cat (extractManufacturerFromTitle title.data).1) title.data
          (matchModelLookup cat title.data (extractManufacturerFromTitle title.data).2
            (extractManufacturerFromTitle title.data).1) := by
      unfold matchCarModel; rw [if_neg he]
    rw [hr]
    cases hml : matchModelLookup cat title.data (extractManufacturerFromTitle title.data).2
        (extractManufacturerFromTitle title.data).1 with
    | none =>
      rw [matchFinish_none]
      rcases matchBase_cases cat (extractManufacturerFromTitle title.data).1 with
        hb | ⟨m, _, hb⟩
      · rw [hb]; simp [MatchResult.empty]
      · rw [hb]; simp [MatchResult.empty]
    | some p =>
      obtain ⟨mi, mo⟩ := p
      have hp := matchModelLookup_prov hml
      obtain ⟨hmi, hmo⟩ := allPairs_memH hp
      obtain ⟨hmiid, hmodels⟩ := hid mi hmi
      obtain ⟨hmoid, _⟩ := hmodels mo hmo
      have hmilab := hlab mi hmi
      obtain ⟨e1, e2, e3⟩ :=
        matchFinish_fields (matchBase cat (extractManufacturerFromTitle title.data).1)
          title.data mi mo
      rw [e1, e2, e3]
      refine ⟨fun _ => hmoid, fun _ => ⟨?_, ?_⟩⟩
      · split
        next htr =>
          intro hee
          rw [hee] at htr
          simp [optTruthy] at htr
        next => exact hmiid
      · split
        next htr =>
          rcases matchBase_cases cat (extractManufacturerFromTitle title.data).1 with
            hb | ⟨m, hmem, hb⟩
          · rw [hb] at htr; simp [MatchResult.empty, optTruthy] at htr
          · rw [hb]
            simpa using hlab m hmem
        next => exact hmilab

/-- C10 witness: the amended hierarchy invariant at the K5 catalog. -/
theorem C10_hierarchy_witness :
    ((matchCarModel catC1 "현대 K5 2.0").trim_id ≠ none →
      (matchCarModel catC1 "현대 K5 2.0").model_id ≠ none) ∧
    ((matchCarModel catC1 "현대 K5 2.0").model_id ≠ none →
      (matchCarModel catC1 "현대 K5 2.0").manufacturer_id ≠ none ∧
      (matchCarModel catC1 "현대 K5 2.0").manufacturer_name ≠ none) :=
  C10_hierarchy catC1 "현대 K5 2.0" (by decide) (by decide)

/-- C1 counterexample: the manufacturer of `"현대 K5 2.0"` resolves to 현대,
yet `_find_model_in_text` returns 기아's K5 (the only catalog owner of the
name), and `match_car_model` emits 현대's manufacturer fields together with
기아's model id — the search is not restricted to the resolved manufacturer. -/
theorem C1_counterexample :
    extractManufacturerFromTitle "현대 K5 2.0".data = (some "현대", "K5 2.0".data) ∧
    findModelInText catC1 "K5 2.0".data (some "현대") = some (kiaMfr, kiaK5) ∧
    kiaMfr.label ≠ some "현대" ∧
    matchCarModel catC1 "현대 K5 2.0" =
      ⟨some "hyundai", some "현대", some "k5", some "K5", none, none⟩ :=
  ⟨rfl, rfl, by decide, rfl⟩

/-- C1 (amended): the manufacturer restriction only holds when the resolved
manufacturer owns the matched name — the per-hit selection returns an entry of
the resolved label whenever one exists — but when the name exists only under
other manufacturers the code falls back to the first entry, as the concrete
conjunct shows. -/
theorem C1_manufacturer_scoping :
    (∀ (entries : List (Mfr × Model)) (lab : String) (p : Mfr × Model),
        lab ≠ "" → (∃ q ∈ entries, q.1.label = some lab) →
        selectEntry entries (some lab) = some p → p.1.label = some lab) ∧
    selectEntry [(kiaMfr, kiaK5)] (some "현대") = some (kiaMfr, kiaK5) := by
  refine ⟨?_, rfl⟩
  intro entries lab p hne hex hsel
  unfold selectEntry at hsel
  rw [if_pos (by simp [optTruthy, hne])] at hsel
  have hex2 : ∃ q ∈ entries, (fun q : Mfr × Model => q.1.label == some lab) q := by
    obtain ⟨q, hqm, hql⟩ := hex
    exact ⟨q, hqm, by simp [hql]⟩
  have hsome := List.find?_isSome.mpr hex2
  cases hfind : entries.find? (fun q => q.1.label == some lab) with
  | none => rw [hfind] at hsome; simp at hsome
  | some q =>
    rw [hfind] at hsel
    have hq : q.1.label = some lab := by simpa using List.find?_some hfind
    exact (Option.some.inj hsel) ▸ hq

/-- C1 witness: the scoped selection at a singleton entry list owned by the
resolved manufacturer. -/
theorem C1_manufacturer_scoping_witness :
    (kiaMfr, kiaK5).1.label = some "기아" :=
  C1_manufacturer_scoping.1 [(kiaMfr, kiaK5)] "기아" (kiaMfr, kiaK5)
    (by decide) ⟨(kiaMfr, kiaK5), by simp, rfl⟩ rfl

/-- C2 counterexample: with XM3 in the catalog under the resolved manufacturer
르노삼성 and M3 under BMW, `match_car_model` on `"르노삼성 XM3 1.6 TCe"`
resolves the model to M3, not XM3 — there is no word-boundary check. -/
theorem C2_counterexample :
    rsMfr.models = [rsXM3] ∧ rsXM3.model = some "XM3" ∧
    matchCarModel catC2 "르노삼성 XM3 1.6 TCe" =
      ⟨some "rs", some "르노삼성", some "m3", some "M3", none, none⟩ ∧
    (some "M3" : Option String) ≠ some "XM3" :=
  ⟨rfl, rfl, rfl, by decide⟩

/-- C2 (amended): candidate matching is plain unanchored substring containment
(longest keys first) against the raw and normalized text, so the variation key
`M3` fires inside `XM3` and the model search returns BMW's M3 even with the
르노삼성 manufacturer hint. -/
theorem C2_substring_matching :
    (∀ needle hay : List Char,
        containsSub needle hay = true ↔ ∃ l r, hay = l ++ needle ++ r) ∧
    containsSub "M3".data "XM3 1.6 TCe".data = true ∧
    findModelInText catC2 "XM3 1.6 TCe".data (some "르노삼성") = some (bmwMfr, bmwM3) :=
  ⟨containsSub_iff, rfl, rfl⟩

/-- C2 witness: the substring characterization instantiated at the M3-in-XM3
occurrence. -/
theorem C2_substring_matching_witness :
    ∃ l r, "XM3 1.6 TCe".data = l ++ "M3".data ++ r :=
  (C2_substring_matching.1 "M3".data "XM3 1.6 TCe".data).mp C2_substring_matching.2.1

end CarAuction
